import Mathlib

/-!
Verification development for the location-hierarchy matching engine
(`match_locations.py`).  The Python source is shallowly embedded:
normalized listing text is modelled as Lean `String`s, regular-expression
word-boundary search is modelled by an explicit character-level matcher,
Python dicts (iterated in insertion order) are modelled as lists, floats
are modelled as rationals, and the two networked side effects (the level-2
insert and the staging write) are modelled by an explicit `Store` state
threaded through the functions that perform them.  The transcendental
haversine distance is modelled separately over the reals; the matching
pipeline takes the distance function as an explicit parameter.
-/

namespace SivarCasas

/-- The four listing text fields, in the order the Python dicts enumerate
them (`title`, `location`, `details`, `description`). -/
inductive Source where
  | title
  | location
  | details
  | description
deriving DecidableEq, Repr

/-- The string the Python code stores in `matchSource` for a text field. -/
def Source.str : Source → String
  | .title => "title"
  | .location => "location"
  | .details => "details"
  | .description => "description"

/-- Python truthiness of an optional integer (`None` and `0` are falsy). -/
def optNatTruthy : Option Nat → Bool
  | none => false
  | some n => n != 0

/-- Python truthiness of an optional float (`None` and `0.0` are falsy). -/
def optRatTruthy : Option ℚ → Bool
  | none => false
  | some q => q != 0

/-! ### Kernel-reducible rational arithmetic

The library's field operations on `Rat` are irreducible, so the embedded
code uses the following equivalents, written through `Rat.divInt,`
`mkRat` and integer arithmetic, which evaluate inside the kernel.  Each
is proved equal to the corresponding standard operation in the lemma
section below. -/

/-- Strict `a < b` as a computable Boolean (denominators are positive). -/
def qblt (a b : ℚ) : Bool := a.num * b.den < b.num * a.den

/-- `a ≤ b` as a computable Boolean. -/
def qble (a b : ℚ) : Bool := a.num * b.den ≤ b.num * a.den

/-- Reducible multiplication on `ℚ`. -/
def qmul (a b : ℚ) : ℚ := Rat.divInt (a.num * b.num) (a.den * b.den)

/-- Reducible addition on `ℚ`. -/
def qadd (a b : ℚ) : ℚ := Rat.divInt (a.num * b.den + b.num * a.den) (a.den * b.den)

/-- Reducible subtraction on `ℚ`. -/
def qsub (a b : ℚ) : ℚ := Rat.divInt (a.num * b.den - b.num * a.den) (a.den * b.den)

/-- Reducible division on `ℚ` (0 on a zero divisor, as in the library). -/
def qdiv (a b : ℚ) : ℚ := Rat.divInt (a.num * b.den) (a.den * b.num)

/-- Reducible `Nat` embedding into `ℚ`. -/
def qofNat (n : Nat) : ℚ := mkRat n 1

/-- Python `max(a, b)` (returns the first argument on ties). -/
def qmax (a b : ℚ) : ℚ := if qble a b then b else a

/-! ### Word-boundary matching (the model of `re.search(r'\b..\b', text)`) -/

/-- A regex word character (`\w`): letters, digits or underscore.  The
normalized texts this engine searches are lowercase and accent-free. -/
def isWordChar (c : Char) : Bool := c.isAlphanum || c == '_'

/-- Whether a `\b` assertion holds between two adjacent positions; an
absent character (start or end of text) counts as a non-word character. -/
def boundaryOk (left right : Option Char) : Bool :=
  (match left with | none => false | some c => isWordChar c)
    != (match right with | none => false | some c => isWordChar c)

/-- Whether the pattern matches at the current position of the text, with
`prev` the character just before that position.  A `\b` is required at
both ends of the pattern, as in the source's search patterns. -/
def matchesAt (pat text : List Char) (prev : Option Char) : Bool :=
  match pat with
  | [] => boundaryOk prev text.head?
  | _ =>
    pat.isPrefixOf text && boundaryOk prev pat.head?
      && boundaryOk pat.getLast? (text.drop pat.length).head?

/-- Scan the text left to right looking for a word-bounded occurrence. -/
def wordSearch (pat : List Char) : List Char → Option Char → Bool
  | [], prev => matchesAt pat [] prev
  | c :: rest, prev => matchesAt pat (c :: rest) prev || wordSearch pat rest (some c)

/-- Model of `re.search(r'\b' + re.escape(pat) + r'\b', text)` returning
whether a match exists. -/
def wordMatch (pat text : String) : Bool :=
  wordSearch pat.data text.data none

/-- Model of Python's substring test `pat in text`. -/
def isInfixB (pat : List Char) : List Char → Bool
  | [] => pat.isPrefixOf []
  | c :: rest => pat.isPrefixOf (c :: rest) || isInfixB pat rest

/-- `pat` occurs as a contiguous substring of `text` (Python `in`). -/
def substrB (pat text : String) : Bool := isInfixB pat.data text.data

/-! ### Text normalization (`normalize_text`, `remove_location_prefixes`) -/

/-- Accent folding for the Spanish characters that occur in this data;
models the NFD-decompose-and-drop-marks step of `normalize_text`. -/
def stripAccent (c : Char) : Char :=
  if c == 'á' || c == 'Á' then 'a'
  else if c == 'é' || c == 'É' then 'e'
  else if c == 'í' || c == 'Í' then 'i'
  else if c == 'ó' || c == 'Ó' then 'o'
  else if c == 'ú' || c == 'Ú' || c == 'ü' || c == 'Ü' then 'u'
  else if c == 'ñ' || c == 'Ñ' then 'n'
  else c

/-- Python `s.lower()` over the character list. -/
def strLower (s : String) : String := String.mk (s.data.map Char.toLower)

/-- Python `s.strip()` over the character list. -/
def strStrip (s : String) : String :=
  String.mk (((s.data.dropWhile Char.isWhitespace).reverse.dropWhile
    Char.isWhitespace).reverse)

/-- `normalize_text`: lowercase, remove accents, strip surrounding
whitespace. -/
def normalize_text (s : String) : String :=
  strStrip (String.mk ((strLower s).data.map stripAccent))

/-- The prefix list of `remove_location_prefixes` (accents as in the
source, which also lists pre-normalization accented spellings). -/
def locationPrefixList : List String :=
  ["residencial ", "colonia ", "urbanizacion ", "urbanización ",
   "barrio ", "lotificacion ", "lotificación ", "reparto ",
   "comunidad ", "cantón ", "canton ", "caserio ",
   "col. ", "res. ", "urb. ", "bo. ",
   "la ", "el ", "los ", "las "]

/-- One pass of the stripping loop: the first listed item that starts the
string is removed. -/
def stripOnce (s : String) : Option String :=
  (locationPrefixList.find? (fun p => p.data.isPrefixOf s.data)).map
    (fun p => String.mk (s.data.drop p.length))

/-- The `while changed` loop of `remove_location_prefixes`; each strip
removes at least one character, so `fuel` bounded by the length reaches
the fixed point. -/
def stripLoop : Nat → String → String
  | 0, s => s
  | n + 1, s =>
    match stripOnce s with
    | none => s
    | some s' => stripLoop n s'

/-- `remove_location_prefixes`. -/
def remove_location_prefixes (text : String) : String :=
  let n := normalize_text text
  strStrip (stripLoop (n.length + 1) n)

/-! ### Data model -/

/-- One row of the in-memory hierarchy index, as built by
`load_location_groups`: the entry dict for a single `sv_loc_group` node.
The source's `no_prefix` key is named `stripped` here. -/
structure LocEntry where
  id : Nat
  name : String
  normalized : String
  stripped : String
  alt_names : List String
  parent_id : Option Nat
  latitude : Option ℚ := none
  longitude : Option ℚ := none
deriving DecidableEq, Repr

/-- The four per-level dicts of `load_location_groups`, keyed by id and
iterated in insertion order, modelled as lists. -/
structure Groups where
  l2 : List LocEntry
  l3 : List LocEntry
  l4 : List LocEntry
  l5 : List LocEntry
deriving DecidableEq, Repr

/-- `groups.get(level, {})`. -/
def Groups.level (g : Groups) : Nat → List LocEntry
  | 2 => g.l2
  | 3 => g.l3
  | 4 => g.l4
  | 5 => g.l5
  | _ => []

/-- The normalized text fields of one listing (the output of
`extract_searchable_text`, or the dict built by `match_scraped_listings`). -/
structure Texts where
  title : String
  location : String
  details : String
  description : String
deriving DecidableEq, Repr

/-- Field lookup `texts.get(source, '')`. -/
def Texts.get (t : Texts) : Source → String
  | .title => t.title
  | .location => t.location
  | .details => t.details
  | .description => t.description

/-- The four ancestry ids produced by `get_parent_chain`. -/
structure Chain where
  l2 : Option Nat := none
  l3 : Option Nat := none
  l4 : Option Nat := none
  l5 : Option Nat := none
deriving DecidableEq, Repr

/-- The per-listing match result dict. -/
structure MatchResult where
  externalId : Option Nat := none
  locGroup2Id : Option Nat := none
  locGroup3Id : Option Nat := none
  locGroup4Id : Option Nat := none
  locGroup5Id : Option Nat := none
  matchLevel : Option Nat := none
  matchScore : Option ℚ := none
  matchSource : Option String := none
  matchedText : Option String := none
deriving DecidableEq, Repr

/-- `result.update(chain)`. -/
def MatchResult.withChain (r : MatchResult) (c : Chain) : MatchResult :=
  { r with locGroup2Id := c.l2, locGroup3Id := c.l3,
           locGroup4Id := c.l4, locGroup5Id := c.l5 }

/-- A record written to the `unmatched_locations` staging queue by
`stage_l2_candidate`. -/
structure StagingRecord where
  external_id : Nat
  display_name : String
  normalized_name : String
  latitude : ℚ
  longitude : ℚ
  parent_l3_id : Nat
  source_field : Source
deriving DecidableEq, Repr

/-- The externally visible state of the remote store: the primary keys
already present in `sv_loc_group2` (a POST with one of these ids answers
409) and the staged review records. -/
structure Store where
  takenIds : List Nat
  staging : List StagingRecord
deriving DecidableEq, Repr

/-- The distance function the pipeline uses.  In the source this is
always `haversine_distance`; it is a parameter here because the
trigonometric haversine is modelled separately over `ℝ` below. -/
abbrev DistFn := ℚ → ℚ → ℚ → ℚ → ℚ

/-- Round `n / d` (with `d > 0`) to the nearest integer, ties to even
(Python's rounding mode). -/
def roundHalfEven (n : Int) (d : Nat) : Int :=
  let q := Int.fdiv n d
  let r := n - q * d
  if 2 * r < d then q
  else if (d : Int) < 2 * r then q + 1
  else if q % 2 = 0 then q else q + 1

/-- Python `round(x, 2)` on the model's exact rationals. -/
def round2 (q : ℚ) : ℚ :=
  mkRat (roundHalfEven (qmul q 100).num (qmul q 100).den) 100

/-- `s[:255]`. -/
def take255 (s : String) : String := String.mk (s.data.take 255)

/-- `s[:255] if s else None`. -/
def strOpt255 (s : String) : Option String :=
  if s = "" then none else some (take255 s)

/-! ### `find_match_in_level` (used by `match_listing`) -/

/-- The multiplicative source weight applied inside `find_match_in_level`
("Boost score based on source"). -/
def sourceWeight : Source → ℚ
  | .title => 1
  | .location => mkRat 19 20
  | .details => mkRat 17 20
  | .description => mkRat 3 4

/-- The per-candidate body of `find_match_in_level`'s loop: the empty-name
guard, the substring quick check (primary name or any non-empty alternate
name must occur in the text), then the three word-boundary tiers, giving
the raw score and the matched text.  Returns `none` when the candidate is
skipped or scores 0. -/
def fmilScore (info : LocEntry) (text : String) : Option (ℚ × String) :=
  if info.normalized = "" then none
  else if !(substrB info.normalized text
            || info.alt_names.any (fun a => a != "" && substrB a text)) then none
  else if wordMatch info.normalized text then some (1, info.name)
  else if info.stripped ≠ "" && wordMatch info.stripped text then
    some (mkRat 19 20, info.name)
  else
    (info.alt_names.find? (fun a => a != "" && wordMatch a text)).map
      (fun a => (mkRat 9 10, info.name ++ " (" ++ a ++ ")"))

/-- The loop of `find_match_in_level`: weight each raw score by the
source, keep the strictly best candidate (first wins on ties). -/
def fmilGo (text : String) (source : Source) :
    List LocEntry → Option (Nat × ℚ × String) → ℚ → Option (Nat × ℚ × String)
  | [], best, _ => best
  | info :: rest, best, bestScore =>
    match fmilScore info text with
    | none => fmilGo text source rest best bestScore
    | some (raw, mname) =>
      if qblt bestScore (qmul raw (sourceWeight source)) then
        fmilGo text source rest (some (info.id, qmul raw (sourceWeight source), mname))
          (qmul raw (sourceWeight source))
      else fmilGo text source rest best bestScore

/-- `find_match_in_level(text, level_data, source)`. -/
def find_match_in_level (text : String) (level_data : List LocEntry)
    (source : Source) : Option (Nat × ℚ × String) :=
  if text = "" then none else fmilGo text source level_data none 0

/-- The source iteration order of `find_best_match_in_level`
("location first for tie-breaker"). -/
def fbmSourceOrder : List Source := [.location, .title, .details, .description]

/-- The parent filter applied per source inside
`find_best_match_in_level` (`parent_filter is not None`). -/
def fbmFiltered (level_data : List LocEntry) (pf : Option Nat) : List LocEntry :=
  match pf with
  | some p => level_data.filter (fun v => v.parent_id == some p)
  | none => level_data

/-- The 0.01 boost `find_best_match_in_level` adds to the location
source as a tie-breaker. -/
def locBoost (source : Source) (score : ℚ) : ℚ :=
  if source = .location then qadd score (mkRat 1 100) else score

/-- Fold one `find_match_in_level` outcome into the running best of
`find_best_match_in_level`: apply the location boost and keep the
strictly best (accumulator: current best and its score). -/
def fbmUpd (source : Source) (r : Option (Nat × ℚ × String))
    (acc : Option (Nat × ℚ × String × Source) × ℚ) :
    Option (Nat × ℚ × String × Source) × ℚ :=
  match r with
  | none => acc
  | some (locId, score, mt) =>
    if qblt acc.2 (locBoost source score) then
      (some (locId, locBoost source score, mt, source), locBoost source score)
    else acc

/-- One source step of `find_best_match_in_level`'s loop: skip an empty
field, run `find_match_in_level` on the (possibly parent-filtered)
candidates, and fold the result into the accumulator. -/
def fbmStep (texts : Texts) (level_data : List LocEntry) (pf : Option Nat)
    (source : Source) (acc : Option (Nat × ℚ × String × Source) × ℚ) :
    Option (Nat × ℚ × String × Source) × ℚ :=
  if texts.get source = "" then acc
  else fbmUpd source
    (find_match_in_level (texts.get source) (fbmFiltered level_data pf) source) acc

/-- The source loop of `find_best_match_in_level`. -/
def fbmGo (texts : Texts) (level_data : List LocEntry) (pf : Option Nat) :
    List Source → Option (Nat × ℚ × String × Source) × ℚ →
    Option (Nat × ℚ × String × Source) × ℚ
  | [], acc => acc
  | source :: rest, acc =>
    fbmGo texts level_data pf rest (fbmStep texts level_data pf source acc)

/-- `find_best_match_in_level(texts, level_data, parent_filter)`. -/
def find_best_match_in_level (texts : Texts) (level_data : List LocEntry)
    (pf : Option Nat := none) : Option (Nat × ℚ × String × Source) :=
  (fbmGo texts level_data pf fbmSourceOrder (none, 0)).1

/-! ### `get_parent_chain` -/

/-- Write `chain[f'locGroup{level}Id'] = id`. -/
def Chain.set (c : Chain) (level id : Nat) : Chain :=
  match level with
  | 2 => { c with l2 := some id }
  | 3 => { c with l3 := some id }
  | 4 => { c with l4 := some id }
  | 5 => { c with l5 := some id }
  | _ => c

/-- The `while current_level <= 5` walk of `get_parent_chain`; starting at
level ≥ 2 it runs at most four iterations, so fuel 4 is exact. -/
def gpcGo (groups : Groups) : Nat → Nat → Nat → Chain → Chain
  | 0, _, _, ch => ch
  | fuel + 1, currentId, currentLevel, ch =>
    if currentLevel > 5 then ch
    else
      let ch := ch.set currentLevel currentId
      if currentLevel = 5 then ch
      else
        match (groups.level currentLevel).find? (fun e => e.id == currentId) with
        | none => ch
        | some info =>
          match info.parent_id with
          | none => ch
          | some p =>
            if p ≠ 0 then gpcGo groups fuel p (currentLevel + 1) ch else ch

/-- `get_parent_chain(loc_id, level, groups)`. -/
def get_parent_chain (locId level : Nat) (groups : Groups) : Chain :=
  gpcGo groups 4 locId level {}

/-! ### `haversine_distance` (over `ℝ`; the one transcendental function) -/

/-- `math.radians`. -/
noncomputable def radians (x : ℝ) : ℝ := x * Real.pi / 180

/-- `haversine_distance(lat1, lon1, lat2, lon2)`: great-circle distance in
km with Earth radius 6371. -/
noncomputable def haversine_distance (lat1 lon1 lat2 lon2 : ℝ) : ℝ :=
  let dlat := radians (lat2 - lat1)
  let dlon := radians (lon2 - lon1)
  let a := Real.sin (dlat / 2) ^ 2 +
    Real.cos (radians lat1) * Real.cos (radians lat2) * Real.sin (dlon / 2) ^ 2
  6371 * 2 * Real.arcsin (Real.sqrt a)

/-! ### Neighborhood-name extraction (`extract_colonia_candidate`) -/

/-- `COLONIA_PREFIXES`. -/
def coloniaPrefixList : List String :=
  ["residencial ", "urbanizacion ", "urbanización ", "lotificacion ", "lotificación ",
   "comunidad ", "condominio ", "reparto ", "colonia ", "barrio ", "cantón ", "canton ",
   "caserio ", "caserío ", "parcelacion ", "parcelación ",
   "res. ", "col. ", "urb. ", "bo. ", "cond. "]

/-- `_STOP_WORDS`. -/
def stopWords : List String :=
  ["en", "venta", "alquiler", "renta", "precio", "usd", "dolares",
   "recamara", "recamaras", "habitacion", "habitaciones", "bano", "banos",
   "dormitorio", "dormitorios", "garage", "garaje", "cochera",
   "casa", "apartamento", "terreno", "local", "bodega", "oficina",
   "lote", "lotes", "pasaje", "poligono", "manzana", "bloque", "block",
   "edif", "edificio", "cluster", "torre",
   "metros", "mt2", "m2", "v2", "varas",
   "distrito", "carretera", "carreterea", "km", "calle", "avenida",
   "boulevard", "bulevar", "autopista",
   "por", "con", "cerca", "frente", "atras", "junto", "sobre",
   "minutos",
   "nueva", "nuevo", "exclusiva", "exclusivo", "hermosa", "hermoso",
   "amplia", "amplio", "moderna", "moderno", "bonita", "bonito",
   "porcion", "jurisdiccion", "etapa", "fase",
   "primera", "segunda", "tercera", "cuarta", "quinta",
   "uno", "dos", "tres", "cuatro", "cinco",
   "i", "ii", "iii", "iv", "v", "vi",
   "nor", "poniente", "oriente",
   "residencial", "urbanizacion", "lotificacion", "comunidad", "condominio",
   "reparto", "colonia", "barrio", "canton", "caserio", "parcelacion",
   "comercial", "industrial", "recreativo"]

/-- `_INVALID_NAMES`. -/
def invalidNames : List String :=
  ["exclusiva", "exclusivo", "nueva", "nuevo", "hermosa", "hermoso",
   "moderna", "moderno", "bonita", "bonito", "amplia", "amplio",
   "grande", "pequena", "privada", "privado", "comercial", "recreativo",
   "hacienda"]

/-- `_TRAILING_FILLER`. -/
def trailingFiller : List String :=
  ["la", "el", "los", "las", "de", "del", "y", "e", "a",
   "san", "santa", "nor", "sur", "oriente", "poniente"]

/-- `_build_location_stop_names(groups)`: normalized and prefix-stripped
L3/L4/L5 names of length at least 3.  (The source caches this set at
module level; the cache is sound because levels 3-5 never change within a
run, so it is modelled by recomputation.) -/
def buildLocationStopNames (groups : Groups) : List String :=
  ([3, 4, 5].flatMap fun lvl =>
    (groups.level lvl).flatMap fun info =>
      (if info.normalized.length ≥ 3 then [info.normalized] else []) ++
      (if info.stripped.length ≥ 3 then [info.stripped] else []))

/-- A character matched by the token regex head `[a-záéíóúñü]`. -/
def isTokLetter (c : Char) : Bool :=
  ('a' ≤ c && c ≤ 'z') || c == 'á' || c == 'é' || c == 'í' || c == 'ó'
    || c == 'ú' || c == 'ñ' || c == 'ü'

/-- Scanner state: the (reversed) token built so far, and whether the
scan is in the optional trailing digit part. -/
def tokGo : List Char → Option (List Char × Bool) → List String
  | [], none => []
  | [], some (tok, _) => [String.mk tok.reverse]
  | c :: rest, none =>
    if isTokLetter c then tokGo rest (some ([c], false)) else tokGo rest none
  | c :: rest, some (tok, false) =>
    if isTokLetter c then tokGo rest (some (c :: tok, false))
    else if c.isDigit then tokGo rest (some (c :: tok, true))
    else String.mk tok.reverse :: tokGo rest none
  | c :: rest, some (tok, true) =>
    if c.isDigit then tokGo rest (some (c :: tok, true))
    else if isTokLetter c then String.mk tok.reverse :: tokGo rest (some ([c], false))
    else String.mk tok.reverse :: tokGo rest none

/-- The successive matches of `re.finditer(r'[a-záéíóúñü]+(?:\d+)?', s)`. -/
def tokenize (s : String) : List String := tokGo s.data none

/-- Python `w.isdigit()` (nonempty, all digits). -/
def isAllDigits (w : String) : Bool := w ≠ "" && w.data.all Char.isDigit

/-- The word-collection loop of `_find_in_text`: stop at a stop word or a
bare number, cap at `MAX_COLONIA_NAME_WORDS + extra_lookahead = 9` words. -/
def collectWords : List String → List String → List String
  | [], acc => acc.reverse
  | w :: rest, acc =>
    if stopWords.contains w then acc.reverse
    else if isAllDigits w && !acc.isEmpty then acc.reverse
    else
      let acc := w :: acc
      if acc.length ≥ 9 then acc.reverse else collectWords rest acc

/-- `' '.join(ws)`. -/
def joinSpace : List String → String
  | [] => ""
  | [w] => w
  | w :: rest => w ++ " " ++ joinSpace rest

/-- Cut a character list at each space. -/
def splitSpace : List Char → List Char → List String
  | [], acc => [String.mk acc.reverse]
  | c :: rest, acc =>
    if c == ' ' then String.mk acc.reverse :: splitSpace rest []
    else splitSpace rest (c :: acc)

/-- Python `s.split()` (split on whitespace, dropping empty pieces; the
strings split here use single spaces only). -/
def splitWS (s : String) : List String :=
  (splitSpace s.data []).filter (fun w => w ≠ "")

/-- Whether some window of 1-3 words starting at `start` is a known
L3/L4/L5 name (the inner loop of pass 1 of `_strip_location_names`). -/
def windowHit (stops : List String) (words : List String) (start : Nat) : Bool :=
  (List.range' 1 (min 3 (words.length - start))).any
    (fun wl => stops.contains (joinSpace ((words.drop start).take wl)))

/-- Pass 1 of `_strip_location_names`: earliest hit position from index 2
on, defaulting to the full length. -/
def pass1Cut (stops : List String) (words : List String) : Nat :=
  ((List.range' 2 (words.length - 2)).find? (windowHit stops words)).getD words.length

/-- Strip trailing words satisfying `p`. -/
def dropWhileTrailing (p : String → Bool) (ws : List String) : List String :=
  (ws.reverse.dropWhile p).reverse

/-- The trailing-filler strip (`while words and words[-1] in _TRAILING_FILLER`). -/
def dropTrailingFiller (ws : List String) : List String :=
  dropWhileTrailing (fun w => trailingFiller.contains w) ws

/-- The `for suffix_len in range(1, min(4, len(words)))` scan of pass 2:
drop the first trailing 1-3 word window that is a known location name. -/
def pass2Suffix (stops : List String) (words : List String) : Option (List String) :=
  ((List.range' 1 (min 3 (words.length - 1))).find?
      (fun sl => stops.contains (joinSpace (words.drop (words.length - sl))))).map
    (fun sl => words.take (words.length - sl))

/-- One iteration of the pass-2 `while changed` body; the boolean reports
whether anything changed. -/
def pass2Step (stops : List String) (words : List String) : List String × Bool :=
  let p := match pass2Suffix stops words with
    | some ws' => (ws', true)
    | none => (words, false)
  let ws' := dropTrailingFiller p.1
  (ws', p.2 || decide (ws' ≠ p.1))

/-- The pass-2 `while changed and len(words) > 1` loop; every changing
iteration removes at least one word, so length-bounded fuel is exact. -/
def pass2Loop (stops : List String) : Nat → List String → List String
  | 0, ws => ws
  | n + 1, ws =>
    if ws.length > 1 then
      let p := pass2Step stops ws
      if p.2 then pass2Loop stops n p.1 else p.1
    else ws

/-- `_strip_location_names(words)`. -/
def stripLocationNames (stops : List String) (words : List String) : List String :=
  if stops.isEmpty || words.length ≤ 1 then words
  else
    let words := words.take (pass1Cut stops words)
    pass2Loop stops (words.length + 1) words

/-- The suffix of `text` after the first occurrence of `pat`
(`text[text.find(pat) + len(pat):]`), or `none` when absent. -/
def findAfterAux (pat : List Char) : List Char → Option (List Char)
  | [] => if pat.isPrefixOf ([] : List Char) then some [] else none
  | c :: rest =>
    if pat.isPrefixOf (c :: rest) then some ((c :: rest).drop pat.length)
    else findAfterAux pat rest

/-- String form of `findAfterAux`. -/
def findAfter (pat text : String) : Option String :=
  (findAfterAux pat.data text.data).map String.mk

/-- First element of the list on which `f` succeeds. -/
def firstSome {α β : Type} (f : α → Option β) : List α → Option β
  | [] => none
  | a :: rest =>
    match f a with
    | some b => some b
    | none => firstSome f rest

/-- The Spanish function words kept lowercase when building the display
name. -/
def lowerKeep : List String := ["de", "del", "la", "las", "los", "el", "y"]

/-- Python `w.capitalize()` applied selectively, as in the display-name
builder. -/
def capWord (w : String) : String :=
  if lowerKeep.contains w then w
  else
    match w.data with
    | [] => ""
    | c :: rest => String.mk (c.toUpper :: rest.map Char.toLower)

/-- The body of `_find_in_text` for one prefix: collect, clean and
validate the candidate words after the prefix, and build the display and
normalized names. -/
def findInTextOne (stops : List String) (text pfx : String) :
    Option (String × String) :=
  match findAfter pfx text with
  | none => none
  | some after =>
    let words := collectWords (tokenize after) []
    if words.isEmpty then none
    else
      let words := stripLocationNames stops words
      if words.isEmpty then none
      else
        let words := words.take 5
        let words := dropTrailingFiller words
        if words.isEmpty then none
        else
          let rawName := joinSpace words
          if rawName.length < 4 then none
          else
            let contentWords := words.filter (fun w => !trailingFiller.contains w)
            if contentWords.isEmpty || contentWords.all (fun w => invalidNames.contains w)
            then none
            else
              let display0 := strStrip (strStrip pfx ++ " " ++ rawName)
              let display := joinSpace ((splitWS display0).map capWord)
              some (display, normalize_text display)

/-- `_find_in_text(text, source)`: the first prefix in `COLONIA_PREFIXES`
order that yields a candidate. -/
def findInText (stops : List String) (text : String) (source : Source) :
    Option (String × String × Source) :=
  if text = "" then none
  else (firstSome (findInTextOne stops text) coloniaPrefixList).map
    (fun p => (p.1, p.2, source))

/-- `extract_colonia_candidate(texts, groups)`: high-confidence sources
(`title`, `location`) first, then low-confidence (`details`,
`description`). -/
def extract_colonia_candidate (texts : Texts) (groups : Groups) :
    Option (String × String × Source) :=
  let stops := buildLocationStopNames groups
  firstSome (fun s => findInText stops (texts.get s) s)
    [.title, .location, .details, .description]

/-! ### Level-2 duplicate check and insertion -/

/-- `check_l2_duplicate(candidate_normalized, lat, lng, l3_id, groups)`:
the first level-2 entry under the same parent whose name matches one of
the four equality combinations, or whose stored coordinates are within
the 1 km dedup radius. -/
def check_l2_duplicate (dist : DistFn) (candNorm : String) (lat lng : ℚ)
    (l3Id : Nat) (groups : Groups) : Option Nat :=
  let candStripped := remove_location_prefixes candNorm
  ((groups.l2).find? (fun info =>
    info.parent_id == some l3Id &&
    ((candNorm == info.normalized || candStripped == info.stripped ||
      candNorm == info.stripped || candStripped == info.normalized) ||
     (match info.latitude, info.longitude with
      | some la, some lo => qblt (dist lat lng la lo) 1
      | _, _ => false)))).map (fun info => info.id)

/-- `_next_l2_id(groups)`: `max(existing level-2 ids, default 0) + 1`. -/
def nextL2Id (groups : Groups) : Nat :=
  ((groups.l2).map (fun e => e.id)).foldr max 0 + 1

/-- The in-memory entry `insert_auto_l2` adds to `groups[2]` on success. -/
def autoL2Entry (actualId : Nat) (display norm : String) (lat lng : ℚ)
    (l3Id : Nat) : LocEntry :=
  { id := actualId, name := display, normalized := norm,
    stripped := remove_location_prefixes display, alt_names := [],
    parent_id := some l3Id, latitude := some lat, longitude := some lng }

/-- The retry loop of `insert_auto_l2`: up to `max_retries = 3` POST
attempts; a 409 (the id is already taken in the store) increments the id
and retries; success inserts the row and appends the entry to the
in-memory groups. -/
def insertAutoL2Go (display norm : String) (lat lng : ℚ) (l3Id : Nat)
    (groups : Groups) (store : Store) :
    Nat → Nat → Option Nat × Groups × Store
  | 0, _ => (none, groups, store)
  | attempts + 1, newId =>
    if store.takenIds.contains newId then
      insertAutoL2Go display norm lat lng l3Id groups store attempts (newId + 1)
    else
      (some newId,
       { groups with l2 := groups.l2 ++ [autoL2Entry newId display norm lat lng l3Id] },
       { store with takenIds := store.takenIds ++ [newId] })

/-- `insert_auto_l2(display_name, normalized_name, lat, lng, l3_id,
groups)`, with the remote table modelled by `Store`. -/
def insert_auto_l2 (display norm : String) (lat lng : ℚ) (l3Id : Nat)
    (groups : Groups) (store : Store) : Option Nat × Groups × Store :=
  insertAutoL2Go display norm lat lng l3Id groups store 3 (nextL2Id groups)

/-- `stage_l2_candidate(...)`: append a review record to the staging
queue. -/
def stage_l2_candidate (display norm : String) (lat lng : ℚ) (l3Id : Nat)
    (sourceField : Source) (externalId : Nat) (store : Store) : Store :=
  { store with staging := store.staging ++
      [{ external_id := externalId, display_name := display,
         normalized_name := norm, latitude := lat, longitude := lng,
         parent_l3_id := l3Id, source_field := sourceField }] }

/-- `try_create_l2_from_listing(texts, lat, lng, l3_id, groups,
external_id)`: extract a candidate, return an existing duplicate's id,
insert immediately on high confidence, or stage for review on low
confidence. -/
def try_create_l2_from_listing (dist : DistFn) (texts : Texts) (lat lng : ℚ)
    (l3Id : Nat) (groups : Groups) (store : Store) (externalId : Option Nat) :
    Option Nat × Groups × Store :=
  match extract_colonia_candidate texts groups with
  | none => (none, groups, store)
  | some (display, norm, sourceField) =>
    let existing := check_l2_duplicate dist norm lat lng l3Id groups
    if optNatTruthy existing then (existing, groups, store)
    else if sourceField = .title ∨ sourceField = .location then
      insert_auto_l2 display norm lat lng l3Id groups store
    else
      match externalId with
      | some eid =>
        if eid ≠ 0 then
          (none, groups, stage_l2_candidate display norm lat lng l3Id sourceField eid store)
        else (none, groups, store)
      | none => (none, groups, store)

/-! ### `match_by_coordinates` -/

/-- Decimal formatting of a nonnegative rational with two places, the
model of the `f"{x:.2f}"` used when building `matchedText`. -/
def fmt2 (q : ℚ) : String :=
  let n := roundHalfEven (qmul q 100).num (qmul q 100).den
  toString (n / 100) ++ "." ++ (if n % 100 < 10 then "0" else "") ++ toString (n % 100)

/-- Tier 1 of `match_by_coordinates`: nearest level-2 entry with known
coordinates (strictly closer wins; first wins on ties). -/
def nearestL2 (dist : DistFn) (lat lng : ℚ) :
    List LocEntry → Option (Nat × ℚ × String) → Option (Nat × ℚ × String)
  | [], best => best
  | info :: rest, best =>
    match info.latitude, info.longitude with
    | some la, some lo =>
      let d := dist lat lng la lo
      let best' := match best with
        | none => some (info.id, d, info.name)
        | some (bid, bd, bn) => if qblt d bd then some (info.id, d, info.name)
                                else some (bid, bd, bn)
      nearestL2 dist lat lng rest best'
    | _, _ => nearestL2 dist lat lng rest best

/-- The centroid accumulator of Tier 2: per parent municipality, the
summed child coordinates and the child count, keyed in first-seen order. -/
def addCentroid (acc : List (Nat × ℚ × ℚ × Nat)) (p : Nat) (la lo : ℚ) :
    List (Nat × ℚ × ℚ × Nat) :=
  if acc.any (fun x => x.1 == p) then
    acc.map (fun x =>
      if x.1 == p then (p, qadd x.2.1 la, qadd x.2.2.1 lo, x.2.2.2 + 1) else x)
  else acc ++ [(p, la, lo, 1)]

/-- Build the level-3 centroid sums from the level-2 entries that have
coordinates and a parent. -/
def l3Centroids : List LocEntry → List (Nat × ℚ × ℚ × Nat) →
    List (Nat × ℚ × ℚ × Nat)
  | [], acc => acc
  | info :: rest, acc =>
    match info.latitude, info.longitude, info.parent_id with
    | some la, some lo, some p => l3Centroids rest (addCentroid acc p la lo)
    | _, _, _ => l3Centroids rest acc

/-- Tier 2 of `match_by_coordinates`: nearest municipality centroid. -/
def nearestL3Centroid (dist : DistFn) (lat lng : ℚ) :
    List (Nat × ℚ × ℚ × Nat) → Option (Nat × ℚ) → Option (Nat × ℚ)
  | [], best => best
  | (l3Id, latSum, lngSum, count) :: rest, best =>
    if count = 0 then nearestL3Centroid dist lat lng rest best
    else
      let d := dist lat lng (qdiv latSum (qofNat count)) (qdiv lngSum (qofNat count))
      let best' := match best with
        | none => some (l3Id, d)
        | some (bid, bd) => if qblt d bd then some (l3Id, d) else some (bid, bd)
      nearestL3Centroid dist lat lng rest best'

/-- Tiers 2 and 3 of `match_by_coordinates`: the municipality centroid
fallback, followed by the text-driven level-2 auto-creation attempt. -/
def matchByCoordinatesTier2 (dist : DistFn) (lat lng : ℚ) (groups : Groups)
    (maxL3Km : ℚ) (texts : Texts) (externalId : Option Nat) (store : Store) :
    Option MatchResult × Groups × Store :=
  match nearestL3Centroid dist lat lng (l3Centroids groups.l2 []) none with
  | some (bestL3, bestDist) =>
    if qble bestDist maxL3Km then
      let bestL3Name := ((groups.l3.find? (fun e => e.id == bestL3)).map
        (fun e => e.name)).getD ""
      let base : MatchResult :=
        { matchLevel := some 3,
          matchScore := some (round2 (qmax (mkRat 2 5)
            (qsub (mkRat 9 10) (qdiv bestDist maxL3Km)))),
          matchSource := some "coordinates",
          matchedText := some (take255 (bestL3Name ++ " (" ++ fmt2 bestDist ++ "km)")) }
      let result := base.withChain (get_parent_chain bestL3 3 groups)
      let t := try_create_l2_from_listing dist texts lat lng bestL3 groups store externalId
      match t.1 with
      | some autoId =>
        if autoId ≠ 0 then
          let autoName := ((t.2.1.l2.find? (fun e => e.id == autoId)).map
            (fun e => e.name)).getD ""
          (some { result with
                    locGroup2Id := some autoId
                    matchLevel := some 2
                    matchSource := some "coordinates+auto-l2"
                    matchedText := some (take255 (autoName ++ " (auto, " ++ bestL3Name ++ ")")) },
           t.2.1, t.2.2)
        else (some result, t.2.1, t.2.2)
      | none => (some result, t.2.1, t.2.2)
    else (none, groups, store)
  | none => (none, groups, store)

/-- `match_by_coordinates(lat, lng, groups, max_l2_km, max_l3_km, texts,
external_id)`.  Returns the optional result together with the possibly
grown groups and store (Tier 3 may auto-create a level-2 node). -/
def match_by_coordinates (dist : DistFn) (lat lng : ℚ) (groups : Groups)
    (maxL2Km maxL3Km : ℚ) (texts : Texts) (externalId : Option Nat)
    (store : Store) : Option MatchResult × Groups × Store :=
  if lat == 0 || lng == 0 then (none, groups, store)
  else if groups.l2.isEmpty then (none, groups, store)
  else
    match nearestL2 dist lat lng groups.l2 none with
    | some (bestId, bestDist, bestName) =>
      if qble bestDist maxL2Km then
        let base : MatchResult :=
          { matchLevel := some 2,
            matchScore := some (round2 (qmax (mkRat 1 2)
              (qsub 1 (qdiv bestDist maxL2Km)))),
            matchSource := some "coordinates",
            matchedText := some (take255 (bestName ++ " (" ++ fmt2 bestDist ++ "km)")) }
        (some (base.withChain (get_parent_chain bestId 2 groups)), groups, store)
      else matchByCoordinatesTier2 dist lat lng groups maxL3Km texts externalId store
    | none => matchByCoordinatesTier2 dist lat lng groups maxL3Km texts externalId store

/-! ### Shared orchestrator helpers -/

/-- `get_ids_under_department(level, dept_id)` — defined identically
inside `match_listing` and `match_listing_with_texts`. -/
def get_ids_under_department (groups : Groups) (level deptId : Nat) : List Nat :=
  match level with
  | 4 => ((groups.l4.filter (fun i => i.parent_id == some deptId)).map (fun i => i.id))
  | 3 =>
    let l4Ids := ((groups.l4.filter (fun i => i.parent_id == some deptId)).map (fun i => i.id))
    ((groups.l3.filter (fun i =>
      match i.parent_id with
      | some p => l4Ids.contains p
      | none => false)).map (fun i => i.id))
  | 2 =>
    let l4Ids := ((groups.l4.filter (fun i => i.parent_id == some deptId)).map (fun i => i.id))
    let l3Ids := ((groups.l3.filter (fun i =>
      match i.parent_id with
      | some p => l4Ids.contains p
      | none => false)).map (fun i => i.id))
    ((groups.l2.filter (fun i =>
      match i.parent_id with
      | some p => l3Ids.contains p
      | none => false)).map (fun i => i.id))
  | _ => []

/-- The inner field scan of the department disambiguation: the first
nonempty text field in which the municipality's full normalized name
word-matches. -/
def disambigField (texts : Texts) (l3Name : String) : Option Source :=
  firstSome (fun s =>
    if texts.get s ≠ "" && wordMatch l3Name (texts.get s) then some s else none)
    [.title, .location, .details, .description]

/-- The disambiguation scan over municipalities (identical in both
orchestrators): the first level-3 entry whose normalized name properly
contains the department name and whose full name word-matches some text
field. -/
def disambigScan (groups : Groups) (texts : Texts) (deptName : String) :
    Option (LocEntry × Source) :=
  firstSome (fun info =>
    if substrB deptName info.normalized && deptName != info.normalized then
      (disambigField texts info.normalized).map (fun s => (info, s))
    else none) groups.l3

/-! ### `match_listing` -/

/-- The `for level in [2, 3, 4]` search under an accepted department in
`match_listing` (note the second branch, which can only fire for a repeat
of the current best level and is unreachable for the distinct levels
iterated). -/
def llGoML (texts : Texts) (groups : Groups) (deptId : Nat) :
    List Nat → Option (Nat × ℚ × String × Source) × Nat × ℚ →
    Option (Nat × ℚ × String × Source) × Nat × ℚ
  | [], acc => acc
  | level :: rest, (best, bestLevel, bestScore) =>
    let validIds := get_ids_under_department groups level deptId
    if validIds.isEmpty then llGoML texts groups deptId rest (best, bestLevel, bestScore)
    else
      let filtered := (groups.level level).filter (fun e => validIds.contains e.id)
      if filtered.isEmpty then llGoML texts groups deptId rest (best, bestLevel, bestScore)
      else
        match find_best_match_in_level texts filtered none with
        | none => llGoML texts groups deptId rest (best, bestLevel, bestScore)
        | some (locId, score, mt, src) =>
          if qble (mkRat 9 10) score ∧ level < bestLevel then
            llGoML texts groups deptId rest (some (locId, score, mt, src), level, score)
          else if qblt bestScore score ∧ level = bestLevel then
            llGoML texts groups deptId rest (some (locId, score, mt, src), bestLevel, score)
          else llGoML texts groups deptId rest (best, bestLevel, bestScore)

/-- The level-2 upgrade attempted inside a confirmed level-3 branch of
`match_listing`. -/
def mlL2Upgrade (texts : Texts) (groups : Groups) (l3Id : Nat)
    (r : MatchResult) : MatchResult :=
  match find_best_match_in_level texts groups.l2 (some l3Id) with
  | some (l2Id, l2Score, l2Text, l2Source) =>
    if qble (mkRat 9 10) l2Score then
      { r with
          locGroup2Id := some l2Id
          matchLevel := some 2
          matchScore := some (round2 l2Score)
          matchSource := some l2Source.str
          matchedText := strOpt255 l2Text }
    else r
  | none => r

/-- The auto-creation attempt of `match_listing` step 1 (only when no
level-2 text match was found and the listing has truthy coordinates). -/
def mlAutoCreate (dist : DistFn) (texts : Texts) (lat lng : Option ℚ)
    (extId : Option Nat) (l3Id : Nat) (l3Text : String) (groups : Groups)
    (store : Store) (r : MatchResult) : MatchResult × Groups × Store :=
  if r.locGroup2Id = none ∧ (optRatTruthy lat && optRatTruthy lng) then
    let t := try_create_l2_from_listing dist texts (lat.getD 0) (lng.getD 0)
      l3Id groups store extId
    match t.1 with
    | some autoId =>
      if autoId ≠ 0 then
        let autoName := ((t.2.1.l2.find? (fun e => e.id == autoId)).map
          (fun e => e.name)).getD ""
        ({ r with
             locGroup2Id := some autoId
             matchLevel := some 2
             matchSource := some "text+auto-l2"
             matchedText := some (take255 (autoName ++ " (auto, " ++ l3Text ++ ")")) },
         t.2.1, t.2.2)
      else (r, t.2.1, t.2.2)
    | none => (r, t.2.1, t.2.2)
  else (r, groups, store)

/-- Steps 2 and 3 of `match_listing`: the department search with
disambiguation, then the last-resort direct level-2 search. -/
def matchListingStep2 (texts : Texts) (groups : Groups) (store : Store)
    (result0 : MatchResult) :
    Option MatchResult × Groups × Store :=
  match find_best_match_in_level texts groups.l5 none with
  | some (l5Id, l5Score, l5Text, l5Source) =>
    let deptName := ((groups.l5.find? (fun e => e.id == l5Id)).map
      (fun e => e.normalized)).getD ""
    let redirect :=
      if deptName ≠ "" then disambigScan groups texts deptName else none
    match redirect with
    | some (l3Info, src) =>
      let r1 := { result0.withChain (get_parent_chain l3Info.id 3 groups) with
                    matchLevel := some 3
                    matchScore := some (round2 l5Score)
                    matchSource := some src.str
                    matchedText := some (take255 l3Info.name) }
      (some (mlL2Upgrade texts groups l3Info.id r1), groups, store)
    | none =>
      let r1 : MatchResult := { result0 with
                                  locGroup5Id := some l5Id
                                  matchLevel := some 5
                                  matchScore := some (round2 l5Score)
                                  matchSource := some l5Source.str
                                  matchedText := strOpt255 l5Text }
      let low := llGoML texts groups l5Id [2, 3, 4] (none, 5, 0)
      match low.1 with
      | some (locId, score, mt, src) =>
        let r2 := { r1.withChain (get_parent_chain locId low.2.1 groups) with
                      matchLevel := some low.2.1
                      matchScore := some (round2 score)
                      matchSource := some src.str
                      matchedText := strOpt255 mt }
        (some r2, groups, store)
      | none => (some r1, groups, store)
  | none =>
    match find_best_match_in_level texts groups.l2 none with
    | some (l2Id, l2Score, l2Text, l2Source) =>
      if qble (mkRat 9 10) l2Score then
        let r1 := { result0.withChain (get_parent_chain l2Id 2 groups) with
                      matchLevel := some 2
                      matchScore := some (round2 l2Score)
                      matchSource := some l2Source.str
                      matchedText := strOpt255 l2Text }
        (some r1, groups, store)
      else (none, groups, store)
    | none => (none, groups, store)

/-- The text-matching fallback of `match_listing` (steps 1-3 of its
docstring strategy; the coordinate attempt happens in `match_listing`
itself). -/
def matchListingText (dist : DistFn) (texts : Texts) (lat lng : Option ℚ)
    (extId : Option Nat) (groups : Groups) (store : Store) :
    Option MatchResult × Groups × Store :=
  let result0 : MatchResult := { externalId := extId }
  match find_best_match_in_level texts groups.l3 none with
  | some (l3Id, l3Score, l3Text, l3Source) =>
    if qble (mkRat 9 10) l3Score then
      let r1 := { result0.withChain (get_parent_chain l3Id 3 groups) with
                    matchLevel := some 3
                    matchScore := some (round2 l3Score)
                    matchSource := some l3Source.str
                    matchedText := strOpt255 l3Text }
      let r2 := mlL2Upgrade texts groups l3Id r1
      let f := mlAutoCreate dist texts lat lng extId l3Id l3Text groups store r2
      (some f.1, f.2.1, f.2.2)
    else matchListingStep2 texts groups store result0
  | none => matchListingStep2 texts groups store result0

/-- `match_listing(listing, groups)`, over the listing's already
extracted normalized texts, parsed coordinates and external id (the
JSON/dict plumbing of `extract_searchable_text` is out of scope).
Returns the optional match result and the threaded groups and store. -/
def match_listing (dist : DistFn) (texts : Texts) (lat lng : Option ℚ)
    (extId : Option Nat) (groups : Groups) (store : Store) :
    Option MatchResult × Groups × Store :=
  if optRatTruthy lat && optRatTruthy lng then
    let c := match_by_coordinates dist (lat.getD 0) (lng.getD 0) groups 3 20
      texts extId store
    match c.1 with
    | some r => (some { r with externalId := extId }, c.2.1, c.2.2)
    | none => matchListingText dist texts lat lng extId c.2.1 c.2.2
  else matchListingText dist texts lat lng extId groups store

/-! ### `match_listing_with_texts` and its inline `find_match` -/

/-- The additive source priorities of `find_match` inside
`match_listing_with_texts`. -/
def sourcePriority : Source → ℚ
  | .location => 4
  | .title => 3
  | .details => 2
  | .description => 1

/-- The per-(candidate, field) body of `find_match`: the word-boundary
quick check over all non-empty name variants, then the three scoring
tiers, giving the raw score and matched text. -/
def fmwtScore (info : LocEntry) (text : String) : Option (ℚ × String) :=
  if !((([info.normalized, info.stripped] ++ info.alt_names).filter
        (fun v => v ≠ "")).any (fun v => wordMatch v text)) then none
  else if wordMatch info.normalized text then some (1, info.name)
  else if info.stripped ≠ "" && wordMatch info.stripped text then
    some (mkRat 19 20, info.name ++ " (via " ++ info.stripped ++ ")")
  else
    match info.alt_names.find? (fun a => a ≠ "" && wordMatch a text) with
    | some a => some (mkRat 9 10, info.name ++ " (" ++ a ++ ")")
    | none => none

/-- The field iteration order of `find_match` (the insertion order of the
texts dict). -/
def fmwtSources : List Source := [.title, .location, .details, .description]

/-- Fold one `fmwtScore` outcome into `find_match`'s running best: the
stored best keeps the raw score, while the comparison uses the
priority-adjusted score. -/
def fmwtUpd (info : LocEntry) (source : Source) (r : Option (ℚ × String))
    (acc : Option (Nat × ℚ × String × Source) × ℚ) :
    Option (Nat × ℚ × String × Source) × ℚ :=
  match r with
  | none => acc
  | some (score, mname) =>
    if qblt acc.2 (qadd score (qmul (sourcePriority source) (mkRat 1 1000))) then
      (some (info.id, score, mname, source),
        qadd score (qmul (sourcePriority source) (mkRat 1 1000)))
    else acc

/-- One field step of `find_match`'s inner loop. -/
def fmwtStep (texts : Texts) (info : LocEntry) (source : Source)
    (acc : Option (Nat × ℚ × String × Source) × ℚ) :
    Option (Nat × ℚ × String × Source) × ℚ :=
  if texts.get source = "" then acc
  else fmwtUpd info source (fmwtScore info (texts.get source)) acc

/-- The inner field loop of `find_match`. -/
def fmwtInner (texts : Texts) (info : LocEntry) :
    List Source → Option (Nat × ℚ × String × Source) × ℚ →
    Option (Nat × ℚ × String × Source) × ℚ
  | [], acc => acc
  | source :: rest, acc => fmwtInner texts info rest (fmwtStep texts info source acc)

/-- The outer candidate loop of `find_match`, with its Python-truthiness
parent filter. -/
def fmwtOuter (texts : Texts) (pf : Option Nat) :
    List LocEntry → Option (Nat × ℚ × String × Source) × ℚ →
    Option (Nat × ℚ × String × Source) × ℚ
  | [], acc => acc
  | info :: rest, acc =>
    if optNatTruthy pf && info.parent_id != pf then fmwtOuter texts pf rest acc
    else fmwtOuter texts pf rest (fmwtInner texts info fmwtSources acc)

/-- `find_match(level_data, parent_filter)` as defined inside
`match_listing_with_texts`. -/
def findMatchWT (texts : Texts) (level_data : List LocEntry)
    (pf : Option Nat := none) : Option (Nat × ℚ × String × Source) :=
  (fmwtOuter texts pf level_data (none, 0)).1

/-- The level-2 upgrade attempted inside a confirmed level-3 branch of
`match_listing_with_texts`. -/
def wtL2Upgrade (texts : Texts) (groups : Groups) (l3Id : Nat)
    (r : MatchResult) : MatchResult :=
  match findMatchWT texts groups.l2 (some l3Id) with
  | some (l2Id, l2Score, l2Text, l2Source) =>
    if qble (mkRat 9 10) l2Score then
      { r with
          locGroup2Id := some l2Id
          matchLevel := some 2
          matchScore := some (round2 l2Score)
          matchSource := some l2Source.str
          matchedText := strOpt255 l2Text }
    else r
  | none => r

/-- The `for level in [2, 3, 4]` search under an accepted department in
`match_listing_with_texts` (this version stores the level inside the best
tuple and has no same-level second branch). -/
def llGoWT (texts : Texts) (groups : Groups) (deptId : Nat) :
    List Nat → Option (Nat × Nat × ℚ × String × Source) × Nat →
    Option (Nat × Nat × ℚ × String × Source) × Nat
  | [], acc => acc
  | level :: rest, (best, bestLevel) =>
    let validIds := get_ids_under_department groups level deptId
    if validIds.isEmpty then llGoWT texts groups deptId rest (best, bestLevel)
    else
      let filtered := (groups.level level).filter (fun e => validIds.contains e.id)
      match findMatchWT texts filtered none with
      | none => llGoWT texts groups deptId rest (best, bestLevel)
      | some (locId, score, mt, src) =>
        if qble (mkRat 9 10) score ∧ level < bestLevel then
          llGoWT texts groups deptId rest (some (locId, level, score, mt, src), level)
        else llGoWT texts groups deptId rest (best, bestLevel)

/-- Steps 2 and 3 of `match_listing_with_texts`: department search with
disambiguation, then the last-resort direct level-2 search; unlike
`match_listing` this returns the all-null result dict when nothing
matches. -/
def matchListingWTStep2 (texts : Texts) (groups : Groups) (store : Store)
    (result0 : MatchResult) : MatchResult × Groups × Store :=
  match findMatchWT texts groups.l5 none with
  | some (l5Id, l5Score, l5Text, l5Source) =>
    let deptName := ((groups.l5.find? (fun e => e.id == l5Id)).map
      (fun e => e.normalized)).getD ""
    let redirect :=
      if deptName ≠ "" then disambigScan groups texts deptName else none
    match redirect with
    | some (l3Info, src) =>
      let r1 := { result0.withChain (get_parent_chain l3Info.id 3 groups) with
                    matchLevel := some 3
                    matchScore := some (round2 l5Score)
                    matchSource := some src.str
                    matchedText := some (take255 l3Info.name) }
      (wtL2Upgrade texts groups l3Info.id r1, groups, store)
    | none =>
      let r1 : MatchResult := { result0 with
                                  locGroup5Id := some l5Id
                                  matchLevel := some 5
                                  matchScore := some (round2 l5Score)
                                  matchSource := some l5Source.str
                                  matchedText := strOpt255 l5Text }
      let low := llGoWT texts groups l5Id [2, 3, 4] (none, 5)
      match low.1 with
      | some (locId, level, score, mt, src) =>
        let r2 := { r1.withChain (get_parent_chain locId level groups) with
                      matchLevel := some level
                      matchScore := some (round2 score)
                      matchSource := some src.str
                      matchedText := strOpt255 mt }
        (r2, groups, store)
      | none => (r1, groups, store)
  | none =>
    match findMatchWT texts groups.l2 none with
    | some (l2Id, l2Score, l2Text, l2Source) =>
      if qble (mkRat 9 10) l2Score then
        let r1 := { result0.withChain (get_parent_chain l2Id 2 groups) with
                      matchLevel := some 2
                      matchScore := some (round2 l2Score)
                      matchSource := some l2Source.str
                      matchedText := strOpt255 l2Text }
        (r1, groups, store)
      else (result0, groups, store)
    | none => (result0, groups, store)

/-- The auto-creation attempt of `match_listing_with_texts` step 1. -/
def wtAutoCreate (dist : DistFn) (texts : Texts) (lat lng : Option ℚ)
    (extId : Option Nat) (l3Id : Nat) (l3Text : String) (groups : Groups)
    (store : Store) (r : MatchResult) : MatchResult × Groups × Store :=
  if r.locGroup2Id = none ∧ (optRatTruthy lat && optRatTruthy lng) then
    let t := try_create_l2_from_listing dist texts (lat.getD 0) (lng.getD 0)
      l3Id groups store extId
    match t.1 with
    | some autoId =>
      if autoId ≠ 0 then
        let autoName := ((t.2.1.l2.find? (fun e => e.id == autoId)).map
          (fun e => e.name)).getD ""
        ({ r with
             locGroup2Id := some autoId
             matchLevel := some 2
             matchSource := some "text+auto-l2"
             matchedText := some (take255 (autoName ++ " (auto, " ++ l3Text ++ ")")) },
         t.2.1, t.2.2)
      else (r, t.2.1, t.2.2)
    | none => (r, t.2.1, t.2.2)
  else (r, groups, store)

/-- The text-matching part of `match_listing_with_texts` (its strategy
step 2 onward). -/
def matchListingWTText (dist : DistFn) (texts : Texts) (lat lng : Option ℚ)
    (extId : Option Nat) (groups : Groups) (store : Store) :
    MatchResult × Groups × Store :=
  let result0 : MatchResult := {}
  match findMatchWT texts groups.l3 none with
  | some (l3Id, l3Score, l3Text, l3Source) =>
    if qble (mkRat 9 10) l3Score then
      let r1 := { result0.withChain (get_parent_chain l3Id 3 groups) with
                    matchLevel := some 3
                    matchScore := some (round2 l3Score)
                    matchSource := some l3Source.str
                    matchedText := strOpt255 l3Text }
      let r2 := wtL2Upgrade texts groups l3Id r1
      wtAutoCreate dist texts lat lng extId l3Id l3Text groups store r2
    else matchListingWTStep2 texts groups store result0
  | none => matchListingWTStep2 texts groups store result0

/-- `match_listing_with_texts(texts, groups, latitude, longitude,
external_id)`. -/
def match_listing_with_texts (dist : DistFn) (texts : Texts)
    (lat lng : Option ℚ) (extId : Option Nat) (groups : Groups)
    (store : Store) : MatchResult × Groups × Store :=
  if optRatTruthy lat && optRatTruthy lng then
    let c := match_by_coordinates dist (lat.getD 0) (lng.getD 0) groups 3 20
      texts extId store
    match c.1 with
    | some r => (r, c.2.1, c.2.2)
    | none => matchListingWTText dist texts lat lng extId c.2.1 c.2.2
  else matchListingWTText dist texts lat lng extId groups store

/-- No name variant of `e` word-matches the text `t`. -/
def noVariantWordMatch (e : LocEntry) (t : String) : Prop :=
  wordMatch e.normalized t = false ∧ wordMatch e.stripped t = false ∧
    ∀ a ∈ e.alt_names, wordMatch a t = false

instance (e : LocEntry) (t : String) : Decidable (noVariantWordMatch e t) := by
  unfold noVariantWordMatch; infer_instance

/-! ## Example data used by the concrete counterexamples and witnesses -/

/-- A distance function for coordinate-free examples (never consulted). -/
def distZero : DistFn := fun _ _ _ _ => 0

/-- An empty remote-store state. -/
def exStore : Store := { takenIds := [], staging := [] }

/-- Example department "Cuscatlán" (level 5). -/
def exDept : LocEntry :=
  { id := 501, name := "Cuscatlán", normalized := "cuscatlan",
    stripped := "cuscatlan", alt_names := [], parent_id := none }

/-- Example district (level 4) under the department. -/
def exL4 : LocEntry :=
  { id := 401, name := "Distrito Centro", normalized := "distrito centro",
    stripped := "distrito centro", alt_names := [], parent_id := some 501 }

/-- Example municipality "San Salvador" (level 3). -/
def exSS : LocEntry :=
  { id := 301, name := "San Salvador", normalized := "san salvador",
    stripped := "san salvador", alt_names := [], parent_id := some 401 }

/-- Example municipality "Antiguo Cuscatlán" (level 3), whose normalized
name properly contains the department's. -/
def exAC : LocEntry :=
  { id := 303, name := "Antiguo Cuscatlán", normalized := "antiguo cuscatlan",
    stripped := "antiguo cuscatlan", alt_names := [], parent_id := some 401 }

/-- A hierarchy with the single municipality San Salvador. -/
def exG1 : Groups := { l2 := [], l3 := [exSS], l4 := [], l5 := [] }

/-- A listing whose only signal is in the description field. -/
def exTextsDesc : Texts :=
  { title := "", location := "", details := "", description := "casa en san salvador" }

/-- A listing naming the municipality in both title and location. -/
def exTextsTL : Texts :=
  { title := "casa en san salvador", location := "casa en san salvador",
    details := "", description := "" }

/-- A listing whose only signal is in the title field. -/
def exTextsTitleOnly : Texts :=
  { title := "casa en san salvador", location := "", details := "",
    description := "" }

/-- An absolute-difference (L1) rational distance used to instantiate the
coordinate theorems on concrete inputs. -/
def exDistL1 : DistFn := fun a b c d =>
  qadd (qmax (qsub a c) (qsub c a)) (qmax (qsub b d) (qsub d b))

/-- Example level-2 node "Colonia San Benito" with stored coordinates. -/
def exL2SanBenito : LocEntry :=
  { id := 21, name := "Colonia San Benito", normalized := "colonia san benito",
    stripped := "san benito", alt_names := [], parent_id := some 301,
    latitude := some (mkRat 136969 10000), longitude := some (mkRat (-892341) 10000) }

/-- A second, farther level-2 node. -/
def exL2Escalon : LocEntry :=
  { id := 22, name := "Colonia Escalón", normalized := "colonia escalon",
    stripped := "escalon", alt_names := [], parent_id := some 301,
    latitude := some (mkRat 137000 10000), longitude := some (mkRat (-892000) 10000) }

/-- A hierarchy with two coordinate-bearing neighborhoods under San
Salvador. -/
def exGCoord : Groups :=
  { l2 := [exL2SanBenito, exL2Escalon], l3 := [exSS], l4 := [exL4], l5 := [exDept] }

/-- A listing with no recognizable hierarchy term in any field. -/
def exTextsNoise : Texts :=
  { title := "casa bonita con jardin", location := "", details := "",
    description := "" }

/-- No node of any level has any name variant word-matching any field of
the listing. -/
def noSignal (groups : Groups) (texts : Texts) : Prop :=
  ∀ lvl ∈ [2, 3, 4, 5], ∀ e ∈ groups.level lvl, ∀ src ∈ fmwtSources,
    noVariantWordMatch e (texts.get src)

instance (groups : Groups) (texts : Texts) : Decidable (noSignal groups texts) := by
  unfold noSignal; infer_instance

/-- A level-2 node under San Salvador, two units away from the example
listing position in the L1 distance. -/
def exL2Far : LocEntry :=
  { id := 31, name := "Colonia Centro", normalized := "colonia centro",
    stripped := "centro", alt_names := [], parent_id := some 301,
    latitude := some 12, longitude := some 20 }

/-- A hierarchy whose single neighborhood is `exL2Far`. -/
def exG3 : Groups :=
  { l2 := [exL2Far], l3 := [exSS], l4 := [exL4], l5 := [exDept] }

/-- A listing whose title names a new neighborhood. -/
def exTextsColonia : Texts :=
  { title := "casa en residencial bella vista", location := "", details := "",
    description := "" }

/-- A store on which the next three level-2 ids are already taken. -/
def exStoreTaken : Store := { takenIds := [32, 33, 34], staging := [] }

/-- A store with no taken ids. -/
def exStoreFree : Store := { takenIds := [], staging := [] }

/-- The hierarchy after the first successful auto-creation on `exG3`. -/
def exG6g1 : Groups :=
  { exG3 with l2 := exG3.l2 ++
      [autoL2Entry 32 "Residencial Bella Vista" "residencial bella vista" 10 20 301] }

/-- The store after the first successful auto-creation on `exStoreFree`. -/
def exS6s1 : Store := { exStoreFree with takenIds := exStoreFree.takenIds ++ [32] }

/-- A hierarchy with the two municipalities San Salvador and Antiguo
Cuscatlán. -/
def exG5 : Groups :=
  { l2 := [], l3 := [exSS, exAC], l4 := [exL4], l5 := [exDept] }

/-- A listing whose title names both municipalities. -/
def exTextsTwoMunis : Texts :=
  { title := "casa en san salvador y antiguo cuscatlan", location := "",
    details := "", description := "" }

/-- A listing whose title names only Antiguo Cuscatlán. -/
def exTextsAC : Texts :=
  { title := "venta en antiguo cuscatlan", location := "", details := "",
    description := "" }

/-! ## Basic lemmas about the matchers -/

/-- `mkRat` as library division (used to re-express the reducible
constants in standard form). -/
theorem mkRat_eq (n : ℤ) (d : ℕ) : (mkRat n d : ℚ) = (n : ℚ) / (d : ℚ) := by
  rw [Rat.mkRat_eq_divInt, Rat.divInt_eq_div]
  norm_num

/-- `qblt` agrees with the strict order. -/
theorem qblt_iff (a b : ℚ) : qblt a b = true ↔ a < b := by
  unfold qblt
  rw [decide_eq_true_eq]
  have ha : (0:ℚ) < (a.den : ℚ) := by exact_mod_cast a.den_pos
  have hb : (0:ℚ) < (b.den : ℚ) := by exact_mod_cast b.den_pos
  conv_rhs => rw [← Rat.num_div_den a, ← Rat.num_div_den b]
  rw [div_lt_div_iff₀ ha hb]
  constructor
  · intro h; exact_mod_cast h
  · intro h; exact_mod_cast h

/-- `qble` agrees with the order. -/
theorem qble_iff (a b : ℚ) : qble a b = true ↔ a ≤ b := by
  unfold qble
  rw [decide_eq_true_eq]
  have ha : (0:ℚ) < (a.den : ℚ) := by exact_mod_cast a.den_pos
  have hb : (0:ℚ) < (b.den : ℚ) := by exact_mod_cast b.den_pos
  conv_rhs => rw [← Rat.num_div_den a, ← Rat.num_div_den b]
  rw [div_le_div_iff₀ ha hb]
  constructor
  · intro h; exact_mod_cast h
  · intro h; exact_mod_cast h

/-- `qmul` is multiplication. -/
theorem qmul_eq (a b : ℚ) : qmul a b = a * b := by
  have ha : ((a.den : ℚ)) ≠ 0 := Nat.cast_ne_zero.mpr a.den_nz
  have hb : ((b.den : ℚ)) ≠ 0 := Nat.cast_ne_zero.mpr b.den_nz
  unfold qmul
  rw [Rat.divInt_eq_div]
  push_cast
  conv_rhs => rw [← Rat.num_div_den a, ← Rat.num_div_den b]
  field_simp

/-- `qadd` is addition. -/
theorem qadd_eq (a b : ℚ) : qadd a b = a + b := by
  have ha : ((a.den : ℚ)) ≠ 0 := Nat.cast_ne_zero.mpr a.den_nz
  have hb : ((b.den : ℚ)) ≠ 0 := Nat.cast_ne_zero.mpr b.den_nz
  unfold qadd
  rw [Rat.divInt_eq_div]
  push_cast
  conv_rhs => rw [← Rat.num_div_den a, ← Rat.num_div_den b]
  field_simp

/-- `qsub` is subtraction. -/
theorem qsub_eq (a b : ℚ) : qsub a b = a - b := by
  have ha : ((a.den : ℚ)) ≠ 0 := Nat.cast_ne_zero.mpr a.den_nz
  have hb : ((b.den : ℚ)) ≠ 0 := Nat.cast_ne_zero.mpr b.den_nz
  unfold qsub
  rw [Rat.divInt_eq_div]
  push_cast
  conv_rhs => rw [← Rat.num_div_den a, ← Rat.num_div_den b]
  field_simp
  ring

/-- `qdiv` is division. -/
theorem qdiv_eq (a b : ℚ) : qdiv a b = a / b := by
  have ha : ((a.den : ℚ)) ≠ 0 := Nat.cast_ne_zero.mpr a.den_nz
  have hb : ((b.den : ℚ)) ≠ 0 := Nat.cast_ne_zero.mpr b.den_nz
  by_cases h0 : b = 0
  · subst h0
    unfold qdiv
    simp [Rat.divInt_eq_div]
  · have hn : ((b.num : ℚ)) ≠ 0 := by
      exact_mod_cast Rat.num_ne_zero.mpr h0
    unfold qdiv
    rw [Rat.divInt_eq_div]
    push_cast
    conv_rhs => rw [← Rat.num_div_den a, ← Rat.num_div_den b]
    field_simp

/-- `qofNat` is the natural-number embedding. -/
theorem qofNat_eq (n : Nat) : qofNat n = (n : ℚ) := by
  unfold qofNat
  rw [mkRat_eq]
  simp

/-- `qmax` is `max` (they agree on ties as well). -/
theorem qmax_eq (a b : ℚ) : qmax a b = max a b := by
  unfold qmax
  rw [max_def]
  by_cases h : a ≤ b
  · rw [if_pos ((qble_iff a b).mpr h), if_pos h]
  · rw [if_neg (fun hc => h ((qble_iff a b).mp hc)), if_neg h]

/-- A word-bounded occurrence is in particular a substring occurrence. -/
theorem isInfixB_of_wordSearch (pat : List Char) :
    ∀ (text : List Char) (prev : Option Char),
      wordSearch pat text prev = true → isInfixB pat text = true := by
  intro text
  induction text with
  | nil =>
    intro prev h
    match hp : pat with
    | [] => simp [isInfixB, List.isPrefixOf]
    | c :: ps =>
      simp [wordSearch, matchesAt, List.isPrefixOf] at h
  | cons c rest ih =>
    intro prev h
    simp only [wordSearch, Bool.or_eq_true] at h
    rcases h with h | h
    · match hp : pat with
      | [] => simp [isInfixB, List.isPrefixOf]
      | p :: ps =>
        simp only [matchesAt, Bool.and_eq_true] at h
        simp only [isInfixB, Bool.or_eq_true]
        exact Or.inl h.1.1
    · simp only [isInfixB, Bool.or_eq_true]
      exact Or.inr (ih (some c) h)

/-- String form: a word-boundary match implies the substring quick check. -/
theorem substrB_of_wordMatch (pat text : String)
    (h : wordMatch pat text = true) : substrB pat text = true :=
  isInfixB_of_wordSearch pat.data text.data none h

/-- A nonempty pattern never word-matches the empty string. -/
theorem wordMatch_empty_text (pat : String) (hp : pat ≠ "") :
    wordMatch pat "" = false := by
  have hd : pat.data ≠ [] := fun h => hp (by
    cases pat with
    | mk l => simp at h; simp [h])
  unfold wordMatch wordSearch
  match hpat : pat.data with
  | [] => exact absurd hpat hd
  | c :: ps => simp [matchesAt, List.isPrefixOf]

/-- The text a returned word-boundary match was found in is nonempty. -/
theorem text_ne_empty_of_wordMatch (pat text : String) (hp : pat ≠ "")
    (h : wordMatch pat text = true) : text ≠ "" := by
  intro he
  rw [he, wordMatch_empty_text pat hp] at h
  exact Bool.false_ne_true h

/-- When no variant word-matches, `find_match_in_level`'s per-candidate
score is `none` (the quick check may pass on a mid-word substring, but
all three boundary tiers then fail). -/
theorem fmilScore_none_of_noVariant (e : LocEntry) (t : String)
    (h : noVariantWordMatch e t) : fmilScore e t = none := by
  obtain ⟨h1, h2, h3⟩ := h
  unfold fmilScore
  split
  · rfl
  · split
    · rfl
    · rw [h1]
      simp only [Bool.false_eq_true, if_false]
      rw [h2]
      simp only [Bool.and_false, ne_eq, Bool.false_eq_true, and_false, if_false]
      have : e.alt_names.find? (fun a => a != "" && wordMatch a t) = none := by
        rw [List.find?_eq_none]
        intro a ha
        rw [h3 a ha]
        simp
      rw [this]
      rfl

/-- When the primary name word-matches, the per-candidate score of
`find_match_in_level` is the raw 1.0 with the display name. -/
theorem fmilScore_of_primary (e : LocEntry) (t : String) (hne : e.normalized ≠ "")
    (h : wordMatch e.normalized t = true) : fmilScore e t = some (1, e.name) := by
  unfold fmilScore
  rw [if_neg hne]
  rw [substrB_of_wordMatch _ _ h]
  simp only [Bool.true_or, Bool.not_true, Bool.false_eq_true, if_false]
  rw [h]
  simp

/-- The score of `find_match_in_level`'s per-candidate check is one of
the three raw tiers. -/
theorem fmilScore_raw (e : LocEntry) (t : String) (r : ℚ) (m : String)
    (h : fmilScore e t = some (r, m)) : r = 1 ∨ r = 19/20 ∨ r = 9/10 := by
  unfold fmilScore at h
  split at h
  · exact absurd h (by simp)
  · split at h
    · exact absurd h (by simp)
    · split at h
      · exact Or.inl (by cases h; rfl)
      · split at h
        · exact Or.inr (Or.inl (by cases h; rw [mkRat_eq]; norm_num))
        · rcases hf : List.find? (fun a => a != "" && wordMatch a t) e.alt_names with
            _ | a
          · rw [hf] at h; exact absurd h (by simp)
          · rw [hf] at h
            simp only [Option.map_some'] at h
            exact Or.inr (Or.inr (by cases h; rw [mkRat_eq]; norm_num))

/-- Raw-score bounds for `find_match_in_level`'s candidate check. -/
theorem fmilScore_bounds (e : LocEntry) (t : String) (r : ℚ) (m : String)
    (h : fmilScore e t = some (r, m)) : 9/10 ≤ r ∧ r ≤ 1 := by
  rcases fmilScore_raw e t r m h with h' | h' | h' <;> rw [h'] <;> norm_num

/-- When no variant word-matches, `find_match`'s per-candidate score is
`none` (its quick check already uses word boundaries). -/
theorem fmwtScore_none_of_noVariant (e : LocEntry) (t : String)
    (h : noVariantWordMatch e t) : fmwtScore e t = none := by
  obtain ⟨h1, h2, h3⟩ := h
  unfold fmwtScore
  have hq : ((([e.normalized, e.stripped] ++ e.alt_names).filter
      (fun v => v ≠ "")).any (fun v => wordMatch v t)) = false := by
    rw [List.any_eq_false]
    intro v hv
    rw [List.mem_filter] at hv
    rcases hv with ⟨hv, _⟩
    simp only [List.cons_append, List.mem_cons] at hv
    rcases hv with rfl | hv
    · simp [h1]
    · rcases hv with rfl | hv
      · simp [h2]
      · simp only [List.nil_append] at hv
        simp [h3 v hv]
  rw [hq]
  rfl

/-- When the primary name word-matches, `find_match`'s candidate score is
the raw 1.0 with the display name. -/
theorem fmwtScore_of_primary (e : LocEntry) (t : String) (hne : e.normalized ≠ "")
    (h : wordMatch e.normalized t = true) : fmwtScore e t = some (1, e.name) := by
  unfold fmwtScore
  have hq : ((([e.normalized, e.stripped] ++ e.alt_names).filter
      (fun v => v ≠ "")).any (fun v => wordMatch v t)) = true := by
    rw [List.any_eq_true]
    refine ⟨e.normalized, ?_, h⟩
    rw [List.mem_filter]
    exact ⟨by simp, by simpa using hne⟩
  rw [hq]
  simp only [Bool.not_true, Bool.false_eq_true, if_false]
  rw [h]
  simp

/-- The raw score of `find_match`'s candidate check is one of the three
tiers. -/
theorem fmwtScore_raw (e : LocEntry) (t : String) (r : ℚ) (m : String)
    (h : fmwtScore e t = some (r, m)) : r = 1 ∨ r = 19/20 ∨ r = 9/10 := by
  unfold fmwtScore at h
  split at h
  · exact absurd h (by simp)
  · split at h
    · exact Or.inl (by cases h; rfl)
    · split at h
      · exact Or.inr (Or.inl (by cases h; rw [mkRat_eq]; norm_num))
      · split at h
        · exact Or.inr (Or.inr (by cases h; rw [mkRat_eq]; norm_num))
        · exact absurd h (by simp)

/-- Raw-score bounds for `find_match`'s candidate check. -/
theorem fmwtScore_bounds (e : LocEntry) (t : String) (r : ℚ) (m : String)
    (h : fmwtScore e t = some (r, m)) : 9/10 ≤ r ∧ r ≤ 1 := by
  rcases fmwtScore_raw e t r m h with h' | h' | h' <;> rw [h'] <;> norm_num

/-- Every source weight is positive. -/
theorem sourceWeight_pos (s : Source) : 0 < sourceWeight s := by
  cases s <;> norm_num [sourceWeight]

/-- Every source weight is at most 1. -/
theorem sourceWeight_le_one (s : Source) : sourceWeight s ≤ 1 := by
  cases s <;> norm_num [sourceWeight]

/-- A singleton candidate list with a skipped candidate yields no match. -/
theorem fmil_single_none (text : String) (src : Source) (e : LocEntry)
    (h : fmilScore e text = none) : find_match_in_level text [e] src = none := by
  unfold find_match_in_level
  split
  · rfl
  · simp only [fmilGo, h]

/-- A singleton candidate list with a scoring candidate yields that
candidate at its weighted score. -/
theorem fmil_single_some (text : String) (src : Source) (e : LocEntry)
    (r : ℚ) (m : String) (h : fmilScore e text = some (r, m)) (hr : 0 < r)
    (ht : text ≠ "") :
    find_match_in_level text [e] src = some (e.id, r * sourceWeight src, m) := by
  unfold find_match_in_level
  rw [if_neg ht]
  simp only [fmilGo, h]
  rw [if_pos (by
    rw [qblt_iff, qmul_eq]
    exact mul_pos hr (sourceWeight_pos src))]
  rw [qmul_eq]

/-- Any score returned by `find_match_in_level` is positive and bounded
by the source weight. -/
theorem fmil_result_bounds (text : String) (src : Source) (ld : List LocEntry) :
    ∀ (best : Option (Nat × ℚ × String)) (bs : ℚ),
      (∀ i s m, best = some (i, s, m) → 0 < s ∧ s ≤ sourceWeight src) →
      ∀ i s m, fmilGo text src ld best bs = some (i, s, m) →
        0 < s ∧ s ≤ sourceWeight src := by
  induction ld with
  | nil => intro best bs hb i s m h; exact hb i s m h
  | cons e rest ih =>
    intro best bs hb i s m h
    simp only [fmilGo] at h
    rcases hs : fmilScore e text with _ | ⟨r, mn⟩
    · rw [hs] at h
      exact ih best bs hb i s m h
    · simp only [hs] at h
      obtain ⟨hr1, hr2⟩ := fmilScore_bounds e text r mn hs
      by_cases hgt : qblt bs (qmul r (sourceWeight src)) = true
      · rw [if_pos hgt] at h
        refine ih _ _ ?_ i s m h
        intro i' s' m' h'
        cases h'
        rw [qmul_eq]
        constructor
        · exact mul_pos (lt_of_lt_of_le (by norm_num) hr1) (sourceWeight_pos src)
        · calc r * sourceWeight src ≤ 1 * sourceWeight src :=
                mul_le_mul_of_nonneg_right hr2 (le_of_lt (sourceWeight_pos src))
            _ = sourceWeight src := one_mul _
      · rw [if_neg hgt] at h
        exact ih best bs hb i s m h

/-- Corollary at the top level of `find_match_in_level`. -/
theorem find_match_in_level_bounds (text : String) (src : Source)
    (ld : List LocEntry) (i : Nat) (s : ℚ) (m : String)
    (h : find_match_in_level text ld src = some (i, s, m)) :
    0 < s ∧ s ≤ sourceWeight src := by
  unfold find_match_in_level at h
  split at h
  · exact absurd h (by simp)
  · exact fmil_result_bounds text src ld none 0 (by intro i' s' m' h'; cases h') i s m h

/-- One `find_match` step preserves the raw-score invariant. -/
theorem fmwtStep_raw_inv (texts : Texts) (e : LocEntry) (src : Source)
    (acc : Option (Nat × ℚ × String × Source) × ℚ)
    (hacc : ∀ i r m s, acc.1 = some (i, r, m, s) → 9/10 ≤ r) :
    ∀ i r m s, (fmwtStep texts e src acc).1 = some (i, r, m, s) → 9/10 ≤ r := by
  intro i r m s h
  unfold fmwtStep at h
  by_cases ht : texts.get src = ""
  · rw [if_pos ht] at h
    exact hacc i r m s h
  · rw [if_neg ht] at h
    rcases hs : fmwtScore e (texts.get src) with _ | ⟨raw, mn⟩
    · rw [hs] at h
      exact hacc i r m s h
    · rw [hs] at h
      simp only [fmwtUpd] at h
      by_cases hgt : qblt acc.2 (qadd raw (qmul (sourcePriority src) (mkRat 1 1000))) = true
      · rw [if_pos hgt] at h
        cases h
        exact (fmwtScore_bounds e (texts.get src) _ _ hs).1
      · rw [if_neg hgt] at h
        exact hacc i r m s h

/-- The raw score stored by `find_match`'s inner loop is always at least
0.9 (an invariant of the accumulator). -/
theorem fmwtInner_raw_inv (texts : Texts) (e : LocEntry) (srcs : List Source) :
    ∀ (acc : Option (Nat × ℚ × String × Source) × ℚ),
      (∀ i r m s, acc.1 = some (i, r, m, s) → 9/10 ≤ r) →
      ∀ i r m s, (fmwtInner texts e srcs acc).1 = some (i, r, m, s) → 9/10 ≤ r := by
  induction srcs with
  | nil => intro acc hacc; exact hacc
  | cons src rest ih =>
    intro acc hacc
    exact ih _ (fmwtStep_raw_inv texts e src acc hacc)

/-- The outer-loop version of the raw-score invariant. -/
theorem fmwtOuter_raw_inv (texts : Texts) (pf : Option Nat) (ld : List LocEntry) :
    ∀ (acc : Option (Nat × ℚ × String × Source) × ℚ),
      (∀ i r m s, acc.1 = some (i, r, m, s) → 9/10 ≤ r) →
      ∀ i r m s, (fmwtOuter texts pf ld acc).1 = some (i, r, m, s) → 9/10 ≤ r := by
  induction ld with
  | nil => intro acc hacc; exact hacc
  | cons e rest ih =>
    intro acc hacc i r m s h
    simp only [fmwtOuter] at h
    by_cases hskip : (optNatTruthy pf && e.parent_id != pf) = true
    · rw [if_pos hskip] at h
      exact ih acc hacc i r m s h
    · rw [if_neg hskip] at h
      exact ih _ (fmwtInner_raw_inv texts e fmwtSources acc hacc) i r m s h

/-! ## C10 — haversine sanity -/

/-- C10: the haversine distance from a point to itself is 0 for every
coordinate point, and the distance is symmetric in its two arguments. -/
theorem haversine_self_zero_and_symmetric :
    (∀ lat lon : ℝ, haversine_distance lat lon lat lon = 0) ∧
    (∀ lat1 lon1 lat2 lon2 : ℝ,
      haversine_distance lat1 lon1 lat2 lon2 = haversine_distance lat2 lon2 lat1 lon1) := by
  constructor
  · intro lat lon
    simp [haversine_distance, radians]
  · intro lat1 lon1 lat2 lon2
    have hlat : radians (lat1 - lat2) = -radians (lat2 - lat1) := by
      unfold radians; ring
    have hlon : radians (lon1 - lon2) = -radians (lon2 - lon1) := by
      unfold radians; ring
    simp only [haversine_distance]
    rw [hlat, hlon, neg_div, neg_div, Real.sin_neg, Real.sin_neg, neg_sq, neg_sq,
      mul_comm (Real.cos (radians lat2)) (Real.cos (radians lat1))]

/-! ## C1 — acceptance threshold versus field-source weighting -/

/-- C1 counterexample: the municipality name word-matches the description
field with raw score 1.0 (at least 0.9), yet `match_listing` rejects the
match: the threshold there is applied to the source-weighted score
(1.0 × 0.75 = 0.75 < 0.9), so the listing goes unmatched. -/
theorem c1_counterexample :
    wordMatch exSS.normalized exTextsDesc.description = true ∧
    find_match_in_level exTextsDesc.description exG1.l3 Source.description
      = some (exSS.id, mkRat 3 4, exSS.name) ∧
    (mkRat 3 4 : ℚ) < 9/10 ∧
    (match_listing distZero exTextsDesc none none (some 7) exG1 exStore).1 = none := by
  refine ⟨by decide, by decide, by rw [mkRat_eq]; norm_num, by decide⟩

/-- C1 (amended): in `match_listing_with_texts`' `find_match` the
acceptance threshold is applied to the raw score: every returned match
carries a raw score of at least 0.9 and therefore clears the 0.9 gate
regardless of which of the four text fields produced it.  (In
`match_listing`, by contrast, the gate applies to the source-weighted
score, so raw-0.9 matches found only in details or description fail it,
as the counterexample shows.) -/
theorem findMatchWT_raw_clears_threshold (texts : Texts) (ld : List LocEntry)
    (pf : Option Nat) (i : Nat) (r : ℚ) (m : String) (s : Source)
    (h : findMatchWT texts ld pf = some (i, r, m, s)) : 9/10 ≤ r := by
  unfold findMatchWT at h
  exact fmwtOuter_raw_inv texts pf ld (none, 0)
    (by intro i' r' m' s' h'; cases h') i r m s h

/-- Witness for the amended C1 at a concrete input. -/
theorem findMatchWT_raw_clears_threshold_witness : (9/10 : ℚ) ≤ 1 :=
  findMatchWT_raw_clears_threshold exTextsDesc exG1.l3 none exSS.id 1 exSS.name
    Source.description (by decide)

/-! ## C2 — source priority and tie-breaking -/

/-- A details or description step of `find_best_match_in_level` cannot
displace a stored best of score at least 1. -/
theorem fbmStep_dd_keep (texts : Texts) (ld : List LocEntry) (pf : Option Nat)
    (src : Source) (hsrc : src = Source.details ∨ src = Source.description)
    (acc : Option (Nat × ℚ × String × Source) × ℚ) (hbs : 1 ≤ acc.2) :
    fbmStep texts ld pf src acc = acc := by
  unfold fbmStep
  by_cases ht : texts.get src = ""
  · rw [if_pos ht]
  · rw [if_neg ht]
    rcases hf : find_match_in_level (texts.get src) (fbmFiltered ld pf) src with
      _ | ⟨i, sc, m⟩
    · rfl
    · simp only [fbmUpd]
      have hb := find_match_in_level_bounds _ _ _ _ _ _ hf
      have hloc : locBoost src sc = sc := by
        rcases hsrc with rfl | rfl <;> rfl
      have hsw : sourceWeight src ≤ 17/20 := by
        rcases hsrc with rfl | rfl
        · rw [show sourceWeight Source.details = mkRat 17 20 from rfl, mkRat_eq]
          norm_num
        · rw [show sourceWeight Source.description = mkRat 3 4 from rfl, mkRat_eq]
          norm_num
      have hneg : ¬(qblt acc.2 (locBoost src sc) = true) := by
        intro hq
        have h1 := (qblt_iff _ _).mp hq
        rw [hloc] at h1
        have h2 : sc < 1 := lt_of_le_of_lt (le_trans hb.2 hsw) (by norm_num)
        linarith
      rw [if_neg hneg]

/-- A location step of `find_best_match_in_level` leaves the accumulator
score at most 0.96 when it was at most 0.96 before: the boosted weighted
location score never exceeds 0.95 + 0.01. -/
theorem fbmStep_loc_bound (texts : Texts) (ld : List LocEntry) (pf : Option Nat)
    (acc : Option (Nat × ℚ × String × Source) × ℚ) (hbs : acc.2 ≤ 24/25) :
    (fbmStep texts ld pf .location acc).2 ≤ 24/25 := by
  unfold fbmStep
  by_cases ht : texts.get .location = ""
  · rw [if_pos ht]; exact hbs
  · rw [if_neg ht]
    rcases hf : find_match_in_level (texts.get .location) (fbmFiltered ld pf) .location
      with _ | ⟨i, sc, m⟩
    · exact hbs
    · simp only [fbmUpd]
      have hb := find_match_in_level_bounds _ _ _ _ _ _ hf
      have hbound : locBoost .location sc ≤ 24/25 := by
        show qadd sc (mkRat 1 100) ≤ 24/25
        rw [qadd_eq, mkRat_eq]
        have h2 : sc ≤ 19/20 := by
          refine le_trans hb.2 ?_
          rw [show sourceWeight Source.location = mkRat 19 20 from rfl, mkRat_eq]
          norm_num
        push_cast
        linarith
      by_cases hgt : qblt acc.2 (locBoost .location sc) = true
      · rw [if_pos hgt]; exact hbound
      · rw [if_neg hgt]; exact hbs

/-- A title step whose candidate set scores an exact primary match
replaces any accumulator of score at most 0.96 with the exact match at
score 1. -/
theorem fbmStep_title_wins (texts : Texts) (e : LocEntry)
    (hne : e.normalized ≠ "") (h : wordMatch e.normalized texts.title = true)
    (acc : Option (Nat × ℚ × String × Source) × ℚ) (hbs : acc.2 ≤ 24/25) :
    fbmStep texts [e] none .title acc = (some (e.id, 1, e.name, .title), 1) := by
  have ht : texts.get .title ≠ "" := text_ne_empty_of_wordMatch _ _ hne h
  have hfm : find_match_in_level (texts.get .title) (fbmFiltered [e] none) .title
      = some (e.id, 1 * sourceWeight .title, e.name) :=
    fmil_single_some _ _ _ _ _ (fmilScore_of_primary e _ hne h) one_pos ht
  rw [show (1 : ℚ) * sourceWeight .title = 1 from by rw [one_mul]; rfl] at hfm
  unfold fbmStep
  rw [if_neg ht]
  rw [hfm]
  simp only [fbmUpd]
  have hcond : qblt acc.2 (locBoost .title 1) = true := by
    rw [qblt_iff]
    show acc.2 < (1 : ℚ)
    linarith [hbs, show (24/25 : ℚ) < 1 from by norm_num]
  rw [if_pos hcond]
  rfl

/-- In `find_best_match_in_level` (the matcher used by `match_listing`),
a single candidate whose primary name word-matches the title is returned
from the title field with weighted score 1: the multiplicative weights
make title outrank every other field, in particular locationText and
descriptionText, on equal raw scores. -/
theorem fbm_single_title (texts : Texts) (e : LocEntry)
    (hne : e.normalized ≠ "") (h : wordMatch e.normalized texts.title = true) :
    find_best_match_in_level texts [e] none = some (e.id, 1, e.name, .title) := by
  have h0 : find_best_match_in_level texts [e] none
      = (fbmStep texts [e] none .description (fbmStep texts [e] none .details
          (fbmStep texts [e] none .title (fbmStep texts [e] none .location
            (none, 0))))).1 := rfl
  rw [h0]
  rw [fbmStep_title_wins texts e hne h _
    (fbmStep_loc_bound texts [e] none (none, 0) (by norm_num))]
  rw [fbmStep_dd_keep texts [e] none .details (Or.inl rfl) _ (le_refl 1)]
  rw [fbmStep_dd_keep texts [e] none .description (Or.inr rfl) _ (le_refl 1)]

/-- A details or description step of `find_match` cannot displace a
stored best of adjusted score at least 1.003. -/
theorem fmwtStep_dd_keep (texts : Texts) (e : LocEntry) (src : Source)
    (hsrc : src = Source.details ∨ src = Source.description)
    (acc : Option (Nat × ℚ × String × Source) × ℚ) (hbs : 1003/1000 ≤ acc.2) :
    fmwtStep texts e src acc = acc := by
  unfold fmwtStep
  by_cases ht : texts.get src = ""
  · rw [if_pos ht]
  · rw [if_neg ht]
    rcases hf : fmwtScore e (texts.get src) with _ | ⟨r, mn⟩
    · rfl
    · simp only [fmwtUpd]
      have hb2 := (fmwtScore_bounds e _ r mn hf).2
      have hp : sourcePriority src ≤ 2 := by
        rcases hsrc with rfl | rfl
        · norm_num [sourcePriority]
        · norm_num [sourcePriority]
      have hneg : ¬(qblt acc.2 (qadd r (qmul (sourcePriority src) (mkRat 1 1000))) = true) := by
        intro hq
        have h1 := (qblt_iff _ _).mp hq
        rw [qadd_eq, qmul_eq, mkRat_eq] at h1
        push_cast at h1
        nlinarith
      rw [if_neg hneg]

/-- A title step of `find_match` on a primary-matching candidate replaces
any accumulator of adjusted score at most 0.96. -/
theorem fmwtStep_title_wins (texts : Texts) (e : LocEntry)
    (hne : e.normalized ≠ "") (h : wordMatch e.normalized texts.title = true)
    (acc : Option (Nat × ℚ × String × Source) × ℚ) (hbs : acc.2 ≤ 24/25) :
    fmwtStep texts e .title acc
      = (some (e.id, 1, e.name, .title),
         qadd 1 (qmul (sourcePriority .title) (mkRat 1 1000))) := by
  have ht : texts.get .title ≠ "" := text_ne_empty_of_wordMatch _ _ hne h
  unfold fmwtStep
  rw [if_neg ht]
  have hs : fmwtScore e (texts.get Source.title) = some (1, e.name) :=
    fmwtScore_of_primary e (texts.get Source.title) hne h
  rw [hs]
  simp only [fmwtUpd]
  have hcond : qblt acc.2 (qadd 1 (qmul (sourcePriority .title) (mkRat 1 1000))) = true := by
    rw [qblt_iff, qadd_eq, qmul_eq, mkRat_eq]
    have : (1 : ℚ) + sourcePriority .title * (1/1000) = 1003/1000 := by
      norm_num [sourcePriority]
    push_cast
    norm_num [sourcePriority]
    linarith [hbs]
  rw [if_pos hcond]

/-- A location step of `find_match` on a primary-matching candidate
replaces the stored title match: the additive priority of locationText
(4) beats that of title (3). -/
theorem fmwtStep_location_wins (texts : Texts) (e : LocEntry)
    (hne : e.normalized ≠ "") (h : wordMatch e.normalized texts.location = true)
    (acc : Option (Nat × ℚ × String × Source) × ℚ)
    (hbs : acc.2 ≤ qadd 1 (qmul (sourcePriority .title) (mkRat 1 1000))) :
    fmwtStep texts e .location acc
      = (some (e.id, 1, e.name, .location),
         qadd 1 (qmul (sourcePriority .location) (mkRat 1 1000))) := by
  have ht : texts.get .location ≠ "" := text_ne_empty_of_wordMatch _ _ hne h
  unfold fmwtStep
  rw [if_neg ht]
  have hs : fmwtScore e (texts.get Source.location) = some (1, e.name) :=
    fmwtScore_of_primary e (texts.get Source.location) hne h
  rw [hs]
  simp only [fmwtUpd]
  have hmax : qadd 1 (qmul (sourcePriority .title) (mkRat 1 1000)) = 1003/1000 := by
    rw [qadd_eq, qmul_eq, mkRat_eq]
    norm_num [sourcePriority]
  have hcond : qblt acc.2 (qadd 1 (qmul (sourcePriority .location) (mkRat 1 1000))) = true := by
    rw [qblt_iff, qadd_eq, qmul_eq, mkRat_eq]
    rw [hmax] at hbs
    norm_num [sourcePriority]
    linarith [hbs]
  rw [if_pos hcond]

/-- In `match_listing_with_texts`' `find_match`, a single candidate whose
primary name word-matches both title and locationText is returned from
the locationText field. -/
theorem fmwt_single_location_over_title (texts : Texts) (e : LocEntry)
    (hne : e.normalized ≠ "") (hT : wordMatch e.normalized texts.title = true)
    (hL : wordMatch e.normalized texts.location = true) :
    findMatchWT texts [e] none = some (e.id, 1, e.name, .location) := by
  have h0 : findMatchWT texts [e] none
      = (fmwtStep texts e .description (fmwtStep texts e .details
          (fmwtStep texts e .location (fmwtStep texts e .title (none, 0))))).1 := rfl
  rw [h0]
  rw [fmwtStep_title_wins texts e hne hT (none, 0) (by norm_num)]
  rw [fmwtStep_location_wins texts e hne hL _ (le_refl _)]
  have hge : (1003/1000 : ℚ) ≤ qadd 1 (qmul (sourcePriority .location) (mkRat 1 1000)) := by
    rw [qadd_eq, qmul_eq, mkRat_eq]
    norm_num [sourcePriority]
  rw [fmwtStep_dd_keep texts e .details (Or.inl rfl) _ hge]
  rw [fmwtStep_dd_keep texts e .description (Or.inr rfl) _ hge]

/-- In `find_match`, a single candidate whose primary name word-matches
the title, with no variant matching locationText, is returned from the
title field: title (3) outranks detailsText (2) and descriptionText (1). -/
theorem fmwt_single_title_over_description (texts : Texts) (e : LocEntry)
    (hne : e.normalized ≠ "") (hT : wordMatch e.normalized texts.title = true)
    (hL : noVariantWordMatch e texts.location) :
    findMatchWT texts [e] none = some (e.id, 1, e.name, .title) := by
  have h0 : findMatchWT texts [e] none
      = (fmwtStep texts e .description (fmwtStep texts e .details
          (fmwtStep texts e .location (fmwtStep texts e .title (none, 0))))).1 := rfl
  rw [h0]
  rw [fmwtStep_title_wins texts e hne hT (none, 0) (by norm_num)]
  have hlocskip : fmwtStep texts e .location
      (some (e.id, 1, e.name, .title),
       qadd 1 (qmul (sourcePriority .title) (mkRat 1 1000)))
      = (some (e.id, 1, e.name, .title),
         qadd 1 (qmul (sourcePriority .title) (mkRat 1 1000))) := by
    unfold fmwtStep
    by_cases hl : texts.get .location = ""
    · rw [if_pos hl]
    · have hs : fmwtScore e (texts.get Source.location) = none :=
        fmwtScore_none_of_noVariant e (texts.get Source.location) hL
      rw [if_neg hl, hs]
      rfl
  rw [hlocskip]
  have hge : (1003/1000 : ℚ) ≤ qadd 1 (qmul (sourcePriority .title) (mkRat 1 1000)) := by
    rw [qadd_eq, qmul_eq, mkRat_eq]
    norm_num [sourcePriority]
  rw [fmwtStep_dd_keep texts e .details (Or.inl rfl) _ hge]
  rw [fmwtStep_dd_keep texts e .description (Or.inr rfl) _ hge]

/-- C2 counterexample: in `match_listing_with_texts`, a name appearing in
both `title` and `locationText` is matched from `locationText`, not from
`title` as the claim states. -/
theorem c2_counterexample :
    wordMatch exSS.normalized exTextsTL.title = true ∧
    wordMatch exSS.normalized exTextsTL.location = true ∧
    (match_listing_with_texts distZero exTextsTL none none (some 8) exG1
      exStore).1.matchSource = some "location" := by
  refine ⟨by decide, by decide, by decide⟩

/-- C2 (amended): `find_best_match_in_level` weights sources
multiplicatively (title 1.0 above location 0.95 + 0.01 boost, above
details 0.85, above description 0.75), so on equal raw scores title beats
every other field, including locationText and descriptionText.
`match_listing_with_texts`' `find_match`, however, ranks locationText (4)
above title (3) above detailsText (2) above descriptionText (1), so there
an equal-raw tie between title and locationText resolves to locationText,
while title still beats detailsText and descriptionText. -/
theorem source_priority_tie_breaks :
    (∀ (texts : Texts) (e : LocEntry), e.normalized ≠ "" →
      wordMatch e.normalized texts.title = true →
      find_best_match_in_level texts [e] none = some (e.id, 1, e.name, .title)) ∧
    (∀ (texts : Texts) (e : LocEntry), e.normalized ≠ "" →
      wordMatch e.normalized texts.title = true →
      wordMatch e.normalized texts.location = true →
      findMatchWT texts [e] none = some (e.id, 1, e.name, .location)) ∧
    (∀ (texts : Texts) (e : LocEntry), e.normalized ≠ "" →
      wordMatch e.normalized texts.title = true →
      noVariantWordMatch e texts.location →
      findMatchWT texts [e] none = some (e.id, 1, e.name, .title)) :=
  ⟨fun texts e hne h => fbm_single_title texts e hne h,
   fun texts e hne hT hL => fmwt_single_location_over_title texts e hne hT hL,
   fun texts e hne hT hL => fmwt_single_title_over_description texts e hne hT hL⟩

/-- Witness for the amended C2 at concrete inputs. -/
theorem source_priority_tie_breaks_witness :
    find_best_match_in_level exTextsTL [exSS] none
      = some (exSS.id, 1, exSS.name, .title) ∧
    findMatchWT exTextsTL [exSS] none = some (exSS.id, 1, exSS.name, .location) ∧
    findMatchWT exTextsTitleOnly [exSS] none = some (exSS.id, 1, exSS.name, .title) :=
  ⟨source_priority_tie_breaks.1 exTextsTL exSS (by decide) (by decide),
   source_priority_tie_breaks.2.1 exTextsTL exSS (by decide) (by decide) (by decide),
   source_priority_tie_breaks.2.2 exTextsTitleOnly exSS (by decide) (by decide) (by decide)⟩


/-! ## C7 — the no-signal listing is a valid unmatched result -/

/-- Membership in the parent-filtered candidate list implies membership
in the full list. -/
theorem fbmFiltered_subset (ld : List LocEntry) (pf : Option Nat) (e : LocEntry)
    (h : e ∈ fbmFiltered ld pf) : e ∈ ld := by
  unfold fbmFiltered at h
  cases pf with
  | none => exact h
  | some p => exact (List.mem_filter.mp h).1

/-- A fold over candidates that all score `none` returns the incoming
best. -/
theorem fmilGo_all_none (text : String) (src : Source) (ld : List LocEntry)
    (h : ∀ e ∈ ld, fmilScore e text = none) :
    ∀ (best : Option (Nat × ℚ × String)) (bs : ℚ),
      fmilGo text src ld best bs = best := by
  induction ld with
  | nil => intro best bs; rfl
  | cons e rest ih =>
    intro best bs
    simp only [fmilGo, h e (List.mem_cons_self e rest)]
    exact ih (fun e' he' => h e' (List.mem_cons_of_mem e he')) best bs

/-- `find_match_in_level` returns `none` when every candidate scores
`none`. -/
theorem find_match_in_level_none (text : String) (src : Source)
    (ld : List LocEntry) (h : ∀ e ∈ ld, fmilScore e text = none) :
    find_match_in_level text ld src = none := by
  unfold find_match_in_level
  split
  · rfl
  · exact fmilGo_all_none text src ld h none 0

/-- A `find_best_match_in_level` step keeps its accumulator when every
candidate scores `none` in the step's field. -/
theorem fbmStep_keep_of_none (texts : Texts) (ld : List LocEntry)
    (pf : Option Nat) (src : Source)
    (acc : Option (Nat × ℚ × String × Source) × ℚ)
    (h : ∀ e ∈ ld, fmilScore e (texts.get src) = none) :
    fbmStep texts ld pf src acc = acc := by
  unfold fbmStep
  by_cases ht : texts.get src = ""
  · rw [if_pos ht]
  · rw [if_neg ht]
    rw [find_match_in_level_none _ _ _
      (fun e he => h e (fbmFiltered_subset ld pf e he))]
    rfl

/-- `find_best_match_in_level` finds nothing when no variant of any
candidate word-matches any field. -/
theorem find_best_match_in_level_none (texts : Texts) (ld : List LocEntry)
    (pf : Option Nat)
    (h : ∀ e ∈ ld, ∀ src ∈ fmwtSources, noVariantWordMatch e (texts.get src)) :
    find_best_match_in_level texts ld pf = none := by
  have hstep : ∀ src ∈ fmwtSources, ∀ acc, fbmStep texts ld pf src acc = acc := by
    intro src hsrc acc
    exact fbmStep_keep_of_none texts ld pf src acc
      (fun e he => fmilScore_none_of_noVariant e _ (h e he src hsrc))
  show (fbmGo texts ld pf fbmSourceOrder (none, 0)).1 = none
  have h1 := hstep .location (by decide)
  have h2 := hstep .title (by decide)
  have h3 := hstep .details (by decide)
  have h4 := hstep .description (by decide)
  show (fbmStep texts ld pf .description (fbmStep texts ld pf .details
    (fbmStep texts ld pf .title (fbmStep texts ld pf .location (none, 0))))).1 = none
  rw [h1, h2, h3, h4]

/-- A `find_match` step keeps its accumulator when no variant of the
candidate word-matches the step's field. -/
theorem fmwtStep_keep_of_noVariant (texts : Texts) (e : LocEntry) (src : Source)
    (acc : Option (Nat × ℚ × String × Source) × ℚ)
    (h : noVariantWordMatch e (texts.get src)) :
    fmwtStep texts e src acc = acc := by
  unfold fmwtStep
  by_cases ht : texts.get src = ""
  · rw [if_pos ht]
  · rw [if_neg ht, fmwtScore_none_of_noVariant e _ h]
    rfl

/-- The inner loop of `find_match` keeps its accumulator for a candidate
none of whose variants match any field. -/
theorem fmwtInner_keep_of_noVariant (texts : Texts) (e : LocEntry)
    (srcs : List Source)
    (h : ∀ src ∈ srcs, noVariantWordMatch e (texts.get src)) :
    ∀ acc, fmwtInner texts e srcs acc = acc := by
  induction srcs with
  | nil => intro acc; rfl
  | cons src rest ih =>
    intro acc
    simp only [fmwtInner]
    rw [fmwtStep_keep_of_noVariant texts e src acc (h src (List.mem_cons_self src rest))]
    exact ih (fun s hs => h s (List.mem_cons_of_mem src hs)) acc

/-- `find_match` finds nothing when no variant of any candidate
word-matches any field. -/
theorem findMatchWT_none (texts : Texts) (ld : List LocEntry) (pf : Option Nat)
    (h : ∀ e ∈ ld, ∀ src ∈ fmwtSources, noVariantWordMatch e (texts.get src)) :
    findMatchWT texts ld pf = none := by
  have houter : ∀ (l : List LocEntry), (∀ e ∈ l, ∀ src ∈ fmwtSources,
      noVariantWordMatch e (texts.get src)) →
      ∀ acc, fmwtOuter texts pf l acc = acc := by
    intro l
    induction l with
    | nil => intro _ acc; rfl
    | cons e rest ih =>
      intro hl acc
      simp only [fmwtOuter]
      by_cases hskip : (optNatTruthy pf && e.parent_id != pf) = true
      · rw [if_pos hskip]
        exact ih (fun e' he' => hl e' (List.mem_cons_of_mem e he')) acc
      · rw [if_neg hskip]
        rw [fmwtInner_keep_of_noVariant texts e fmwtSources
          (hl e (List.mem_cons_self e rest)) acc]
        exact ih (fun e' he' => hl e' (List.mem_cons_of_mem e he')) acc
  show (fmwtOuter texts pf ld (none, 0)).1 = none
  rw [houter ld h (none, 0)]

/-- C7: a listing with no coordinates and no recognizable hierarchy term
in any text field terminates with the valid unmatched outcome: all four
hierarchy ids null and matchLevel null, returned as an ordinary value
(`match_listing` returns `none` and `match_listing_with_texts` returns
the all-null result record), with the hierarchy and the store untouched. -/
theorem no_signal_is_valid_unmatched (dist : DistFn) (texts : Texts)
    (groups : Groups) (store : Store) (extId : Option Nat)
    (h : noSignal groups texts) :
    match_listing dist texts none none extId groups store = (none, groups, store) ∧
    match_listing_with_texts dist texts none none extId groups store
      = ({}, groups, store) := by
  have h2 := h 2 (by decide)
  have h3 := h 3 (by decide)
  have h4 := h 4 (by decide)
  have h5 := h 5 (by decide)
  have hl3 : find_best_match_in_level texts groups.l3 none = none :=
    find_best_match_in_level_none texts groups.l3 none h3
  have hl5 : find_best_match_in_level texts groups.l5 none = none :=
    find_best_match_in_level_none texts groups.l5 none h5
  have hl2 : find_best_match_in_level texts groups.l2 none = none :=
    find_best_match_in_level_none texts groups.l2 none h2
  have hwt3 : findMatchWT texts groups.l3 none = none :=
    findMatchWT_none texts groups.l3 none h3
  have hwt5 : findMatchWT texts groups.l5 none = none :=
    findMatchWT_none texts groups.l5 none h5
  have hwt2 : findMatchWT texts groups.l2 none = none :=
    findMatchWT_none texts groups.l2 none h2
  constructor
  · show matchListingText dist texts none none extId groups store = (none, groups, store)
    unfold matchListingText
    rw [hl3]
    unfold matchListingStep2
    rw [hl5, hl2]
  · show matchListingWTText dist texts none none extId groups store = ({}, groups, store)
    unfold matchListingWTText
    rw [hwt3]
    unfold matchListingWTStep2
    rw [hwt5, hwt2]

/-- Witness for C7 at a concrete no-signal listing. -/
theorem no_signal_is_valid_unmatched_witness :
    match_listing distZero exTextsNoise none none (some 9) exG1 exStore
      = (none, exG1, exStore) ∧
    match_listing_with_texts distZero exTextsNoise none none (some 9) exG1 exStore
      = ({}, exG1, exStore) :=
  no_signal_is_valid_unmatched distZero exTextsNoise exG1 exStore (some 9) (by decide)


/-! ## C9 — falsy coordinates are treated as missing -/

/-- With a falsy latitude or longitude, the auto-creation branch of
`match_listing`'s step 1 is skipped. -/
theorem mlAutoCreate_skip (dist : DistFn) (texts : Texts) (lat lng : Option ℚ)
    (extId : Option Nat) (l3Id : Nat) (l3Text : String) (groups : Groups)
    (store : Store) (r : MatchResult)
    (h : (optRatTruthy lat && optRatTruthy lng) = false) :
    mlAutoCreate dist texts lat lng extId l3Id l3Text groups store r
      = (r, groups, store) := by
  unfold mlAutoCreate
  rw [if_neg (fun hc => by rw [h] at hc; exact Bool.false_ne_true hc.2)]

/-- With a falsy latitude or longitude, the auto-creation branch of
`match_listing_with_texts`' step 1 is skipped. -/
theorem wtAutoCreate_skip (dist : DistFn) (texts : Texts) (lat lng : Option ℚ)
    (extId : Option Nat) (l3Id : Nat) (l3Text : String) (groups : Groups)
    (store : Store) (r : MatchResult)
    (h : (optRatTruthy lat && optRatTruthy lng) = false) :
    wtAutoCreate dist texts lat lng extId l3Id l3Text groups store r
      = (r, groups, store) := by
  unfold wtAutoCreate
  rw [if_neg (fun hc => by rw [h] at hc; exact Bool.false_ne_true hc.2)]

/-- Steps 2 and 3 of `match_listing` never touch the hierarchy or the
store. -/
theorem matchListingStep2_state (texts : Texts) (groups : Groups) (store : Store)
    (r0 : MatchResult) :
    ∃ r, matchListingStep2 texts groups store r0 = (r, groups, store) := by
  unfold matchListingStep2
  dsimp only
  repeat' split
  all_goals exact ⟨_, rfl⟩

/-- Steps 2 and 3 of `match_listing_with_texts` never touch the hierarchy
or the store. -/
theorem matchListingWTStep2_state (texts : Texts) (groups : Groups) (store : Store)
    (r0 : MatchResult) :
    ∃ r, matchListingWTStep2 texts groups store r0 = (r, groups, store) := by
  unfold matchListingWTStep2
  dsimp only
  repeat' split
  all_goals exact ⟨_, rfl⟩

/-- With falsy coordinates, the text path of `match_listing` behaves as
if the listing had no coordinates at all, and leaves the state untouched. -/
theorem matchListingText_falsy (dist : DistFn) (texts : Texts)
    (lat lng : Option ℚ) (extId : Option Nat) (groups : Groups) (store : Store)
    (h : (optRatTruthy lat && optRatTruthy lng) = false) :
    matchListingText dist texts lat lng extId groups store
      = matchListingText dist texts none none extId groups store ∧
    ∃ r, matchListingText dist texts lat lng extId groups store
      = (r, groups, store) := by
  unfold matchListingText
  rcases hf : find_best_match_in_level texts groups.l3 none with
    _ | ⟨l3Id, l3Score, l3Text, l3Source⟩
  · exact ⟨rfl, matchListingStep2_state texts groups store _⟩
  · dsimp only
    by_cases hs : qble (mkRat 9 10) l3Score = true
    · rw [if_pos hs, if_pos hs]
      rw [mlAutoCreate_skip dist texts lat lng extId l3Id l3Text groups store _ h]
      rw [mlAutoCreate_skip dist texts none none extId l3Id l3Text groups store _ rfl]
      exact ⟨rfl, ⟨_, rfl⟩⟩
    · rw [if_neg hs, if_neg hs]
      exact ⟨rfl, matchListingStep2_state texts groups store _⟩

/-- With falsy coordinates, the text path of `match_listing_with_texts`
behaves as if the listing had no coordinates, and leaves the state
untouched. -/
theorem matchListingWTText_falsy (dist : DistFn) (texts : Texts)
    (lat lng : Option ℚ) (extId : Option Nat) (groups : Groups) (store : Store)
    (h : (optRatTruthy lat && optRatTruthy lng) = false) :
    matchListingWTText dist texts lat lng extId groups store
      = matchListingWTText dist texts none none extId groups store ∧
    ∃ r, matchListingWTText dist texts lat lng extId groups store
      = (r, groups, store) := by
  unfold matchListingWTText
  rcases hf : findMatchWT texts groups.l3 none with
    _ | ⟨l3Id, l3Score, l3Text, l3Source⟩
  · exact ⟨rfl, matchListingWTStep2_state texts groups store _⟩
  · dsimp only
    by_cases hs : qble (mkRat 9 10) l3Score = true
    · rw [if_pos hs, if_pos hs]
      rw [wtAutoCreate_skip dist texts lat lng extId l3Id l3Text groups store _ h]
      rw [wtAutoCreate_skip dist texts none none extId l3Id l3Text groups store _ rfl]
      exact ⟨rfl, ⟨_, rfl⟩⟩
    · rw [if_neg hs, if_neg hs]
      exact ⟨rfl, matchListingWTStep2_state texts groups store _⟩

/-- C9: a listing whose latitude or longitude is missing or exactly 0 is
treated as having no coordinates: `match_by_coordinates` itself returns
no match on a zero coordinate, both orchestrators return exactly what
they return for a listing with no coordinates at all, and the hierarchy
and store are untouched (so the coordinate-gated neighborhood
auto-creation is never attempted); matching proceeds by text only. -/
theorem falsy_coordinates_skip_coordinate_matching (dist : DistFn)
    (texts : Texts) (lat lng : Option ℚ) (extId : Option Nat)
    (groups : Groups) (store : Store)
    (h : (optRatTruthy lat && optRatTruthy lng) = false) :
    (∀ (la lo : ℚ) (maxL2 maxL3 : ℚ), (la == 0 || lo == 0) = true →
      match_by_coordinates dist la lo groups maxL2 maxL3 texts extId store
        = (none, groups, store)) ∧
    match_listing dist texts lat lng extId groups store
      = ((match_listing dist texts none none extId groups store).1,
         groups, store) ∧
    match_listing_with_texts dist texts lat lng extId groups store
      = ((match_listing_with_texts dist texts none none extId groups store).1,
         groups, store) := by
  refine ⟨?_, ?_, ?_⟩
  · intro la lo maxL2 maxL3 hz
    unfold match_by_coordinates
    rw [if_pos hz]
  · have hml : match_listing dist texts lat lng extId groups store
        = matchListingText dist texts lat lng extId groups store := by
      unfold match_listing
      rw [if_neg (fun hc => by rw [h] at hc; exact Bool.false_ne_true hc)]
    have hml0 : match_listing dist texts none none extId groups store
        = matchListingText dist texts none none extId groups store := rfl
    obtain ⟨heq, r, hr⟩ := matchListingText_falsy dist texts lat lng extId groups store h
    rw [hml, hml0, heq]
    rw [heq] at hr
    rw [hr]
  · have hml : match_listing_with_texts dist texts lat lng extId groups store
        = matchListingWTText dist texts lat lng extId groups store := by
      unfold match_listing_with_texts
      rw [if_neg (fun hc => by rw [h] at hc; exact Bool.false_ne_true hc)]
    have hml0 : match_listing_with_texts dist texts none none extId groups store
        = matchListingWTText dist texts none none extId groups store := rfl
    obtain ⟨heq, r, hr⟩ := matchListingWTText_falsy dist texts lat lng extId groups store h
    rw [hml, hml0, heq]
    rw [heq] at hr
    rw [hr]

/-- Witness for C9: a listing with latitude exactly 0 behaves as
coordinate-free. -/
theorem falsy_coordinates_witness :
    (∀ (la lo : ℚ) (maxL2 maxL3 : ℚ), (la == 0 || lo == 0) = true →
      match_by_coordinates distZero la lo exG1 maxL2 maxL3 exTextsTitleOnly
        (some 4) exStore = (none, exG1, exStore)) ∧
    match_listing distZero exTextsTitleOnly (some 0) (some 5) (some 4) exG1 exStore
      = ((match_listing distZero exTextsTitleOnly none none (some 4) exG1
          exStore).1, exG1, exStore) ∧
    match_listing_with_texts distZero exTextsTitleOnly (some 0) (some 5) (some 4)
      exG1 exStore
      = ((match_listing_with_texts distZero exTextsTitleOnly none none (some 4)
          exG1 exStore).1, exG1, exStore) :=
  falsy_coordinates_skip_coordinate_matching distZero exTextsTitleOnly (some 0)
    (some 5) (some 4) exG1 exStore (by decide)


/-! ## C4 — exact coordinate match -/

/-- `Chain.set` at a level other than 2 does not touch the level-2 id. -/
theorem Chain_set_l2 (ch : Chain) (lvl id : Nat) (h : lvl ≠ 2) :
    (ch.set lvl id).l2 = ch.l2 := by
  rcases lvl with _ | _ | _ | _ | _ | _ | n
  · rfl
  · rfl
  · exact absurd rfl h
  · rfl
  · rfl
  · rfl
  · rfl

/-- Once the walk of `get_parent_chain` has passed level 2, the level-2
id is stable. -/
theorem gpcGo_l2_stable (groups : Groups) :
    ∀ (fuel cid lvl : Nat) (ch : Chain), 3 ≤ lvl →
      (gpcGo groups fuel cid lvl ch).l2 = ch.l2 := by
  intro fuel
  induction fuel with
  | zero => intro cid lvl ch h; rfl
  | succ n ih =>
    intro cid lvl ch h
    unfold gpcGo
    by_cases h5 : lvl > 5
    · rw [if_pos h5]
    · rw [if_neg h5]
      dsimp only
      by_cases heq : lvl = 5
      · rw [if_pos heq]
        exact Chain_set_l2 ch lvl cid (by omega)
      · rw [if_neg heq]
        split
        · exact Chain_set_l2 ch lvl cid (by omega)
        · split
          · exact Chain_set_l2 ch lvl cid (by omega)
          · split
            · exact (ih _ _ _ (by omega)).trans (Chain_set_l2 ch lvl cid (by omega))
            · exact Chain_set_l2 ch lvl cid (by omega)

/-- A `get_parent_chain` walk started at level 2 records the starting id
as the level-2 id. -/
theorem gpcGo_start2 (groups : Groups) (n i : Nat) (ch : Chain) :
    (gpcGo groups (n + 1) i 2 ch).l2 = some i := by
  unfold gpcGo
  rw [if_neg (by omega : ¬(2:Nat) > 5)]
  dsimp only
  rw [if_neg (by omega : ¬(2:Nat) = 5)]
  have hset : (ch.set 2 i).l2 = some i := rfl
  split
  · exact hset
  · split
    · exact hset
    · split
      · exact (gpcGo_l2_stable groups n _ 3 _ (by omega)).trans hset
      · exact hset

/-- `get_parent_chain` from a level-2 node yields that node's id as the
level-2 id. -/
theorem get_parent_chain_l2_self (i : Nat) (groups : Groups) :
    (get_parent_chain i 2 groups).l2 = some i :=
  gpcGo_start2 groups 3 i {}

/-- Once the zero-distance entry is the running best, no strictly farther
entry displaces it. -/
theorem nearestL2_keep (dist : DistFn) (lat lng : ℚ) (e : LocEntry)
    (hlat : e.latitude = some lat) (hlng : e.longitude = some lng)
    (hself : dist lat lng lat lng = 0) :
    ∀ (ld : List LocEntry),
      (∀ e' ∈ ld, e' ≠ e → ∀ la lo, e'.latitude = some la →
        e'.longitude = some lo → 0 < dist lat lng la lo) →
      ∀ n, nearestL2 dist lat lng ld (some (e.id, 0, n)) = some (e.id, 0, n) := by
  intro ld
  induction ld with
  | nil => intro _ n; rfl
  | cons a rest ih =>
    intro h n
    have hrest := fun e' he' => h e' (List.mem_cons_of_mem a he')
    unfold nearestL2
    rcases hla : a.latitude with _ | la
    · exact ih hrest n
    · rcases hlo : a.longitude with _ | lo
      · exact ih hrest n
      · dsimp only
        have hd : ¬(qblt (dist lat lng la lo) 0 = true) := by
          intro hq
          have h1 := (qblt_iff _ _).mp hq
          by_cases hae : a = e
          · subst hae
            rw [hla] at hlat
            rw [hlo] at hlng
            cases hlat
            cases hlng
            rw [hself] at h1
            exact absurd h1 (lt_irrefl 0)
          · have := h a (List.mem_cons_self a rest) hae la lo hla hlo
            linarith
        rw [if_neg hd]
        exact ih hrest n

/-- The nearest-entry fold of `match_by_coordinates` returns the
zero-distance entry when every other entry with coordinates is strictly
farther. -/
theorem nearestL2_exact (dist : DistFn) (lat lng : ℚ) (e : LocEntry)
    (hlat : e.latitude = some lat) (hlng : e.longitude = some lng)
    (hself : dist lat lng lat lng = 0) :
    ∀ (ld : List LocEntry), e ∈ ld →
      (∀ e' ∈ ld, e' ≠ e → ∀ la lo, e'.latitude = some la →
        e'.longitude = some lo → 0 < dist lat lng la lo) →
      ∀ (acc : Option (Nat × ℚ × String)),
        (acc = none ∨ ∃ i d n, acc = some (i, d, n) ∧ 0 < d) →
        ∃ n, nearestL2 dist lat lng ld acc = some (e.id, 0, n) := by
  intro ld
  induction ld with
  | nil => intro hmem; exact absurd hmem (List.not_mem_nil e)
  | cons a rest ih =>
    intro hmem h acc hacc
    have hrest := fun e' he' => h e' (List.mem_cons_of_mem a he')
    by_cases hae : a = e
    · subst hae
      unfold nearestL2
      rw [hlat, hlng]
      dsimp only
      rw [hself]
      rcases hacc with rfl | ⟨i, d, n, rfl, hd⟩
      · exact ⟨a.name, nearestL2_keep dist lat lng a hlat hlng hself rest hrest a.name⟩
      · dsimp only
        rw [if_pos ((qblt_iff _ _).mpr hd)]
        exact ⟨a.name, nearestL2_keep dist lat lng a hlat hlng hself rest hrest a.name⟩
    · have hmem' : e ∈ rest := by
        rcases List.mem_cons.mp hmem with rfl | hm
        · exact absurd rfl hae
        · exact hm
      unfold nearestL2
      rcases hla : a.latitude with _ | la
      · exact ih hmem' hrest acc hacc
      · rcases hlo : a.longitude with _ | lo
        · exact ih hmem' hrest acc hacc
        · dsimp only
          have hpos : 0 < dist lat lng la lo :=
            h a (List.mem_cons_self a rest) hae la lo hla hlo
          rcases hacc with rfl | ⟨i, d, n, rfl, hd⟩
          · exact ih hmem' hrest _ (Or.inr ⟨a.id, dist lat lng la lo, a.name, rfl, hpos⟩)
          · dsimp only
            by_cases hq : qblt (dist lat lng la lo) d = true
            · rw [if_pos hq]
              exact ih hmem' hrest _
                (Or.inr ⟨a.id, dist lat lng la lo, a.name, rfl, hpos⟩)
            · rw [if_neg hq]
              exact ih hmem' hrest _ (Or.inr ⟨i, d, n, rfl, hd⟩)

/-- C4: for a listing whose (truthy) coordinates exactly equal the stored
coordinates of some level-2 node, with every other level-2 node strictly
farther, coordinate matching returns matchedLevel 2, that node's id as
the level-2 id, matchScore 1.0, matchSource "coordinates", and the
ancestry ids obtained by following parentId from that node up to level 5;
the hierarchy and store are untouched. -/
theorem coordinate_exact_match (dist : DistFn) (lat lng : ℚ) (e : LocEntry)
    (groups : Groups) (store : Store) (texts : Texts) (extId : Option Nat)
    (hlat0 : lat ≠ 0) (hlng0 : lng ≠ 0) (he : e ∈ groups.l2)
    (hlat : e.latitude = some lat) (hlng : e.longitude = some lng)
    (hself : dist lat lng lat lng = 0)
    (hothers : ∀ e' ∈ groups.l2, e' ≠ e → ∀ la lo, e'.latitude = some la →
      e'.longitude = some lo → 0 < dist lat lng la lo) :
    ∃ r, match_by_coordinates dist lat lng groups 3 20 texts extId store
        = (some r, groups, store) ∧
      r.matchLevel = some 2 ∧
      r.locGroup2Id = some e.id ∧
      r.matchScore = some 1 ∧
      r.matchSource = some "coordinates" ∧
      r.locGroup2Id = (get_parent_chain e.id 2 groups).l2 ∧
      r.locGroup3Id = (get_parent_chain e.id 2 groups).l3 ∧
      r.locGroup4Id = (get_parent_chain e.id 2 groups).l4 ∧
      r.locGroup5Id = (get_parent_chain e.id 2 groups).l5 := by
  obtain ⟨n, hn⟩ := nearestL2_exact dist lat lng e hlat hlng hself groups.l2 he
    hothers none (Or.inl rfl)
  have hz : ¬((lat == 0 || lng == 0) = true) := by
    simp only [Bool.or_eq_true, beq_iff_eq]
    rintro (rfl | rfl)
    · exact hlat0 rfl
    · exact hlng0 rfl
  have hne : ¬(groups.l2.isEmpty = true) := by
    intro hempty
    rw [List.isEmpty_iff] at hempty
    rw [hempty] at he
    exact List.not_mem_nil e he
  unfold match_by_coordinates
  rw [if_neg hz, if_neg hne, hn]
  dsimp only
  rw [if_pos (by decide : qble 0 3 = true)]
  refine ⟨_, rfl, rfl, ?_, ?_, rfl, rfl, rfl, rfl, rfl⟩
  · show (get_parent_chain e.id 2 groups).l2 = some e.id
    exact get_parent_chain_l2_self e.id groups
  · show some (round2 (qmax (mkRat 1 2) (qsub 1 (qdiv 0 3)))) = some 1
    rw [show round2 (qmax (mkRat 1 2) (qsub 1 (qdiv 0 3))) = 1 from by decide]

/-- Witness for C4 at a concrete two-node hierarchy with an L1-style
rational distance function. -/
theorem coordinate_exact_match_witness :
    ∃ r, match_by_coordinates exDistL1 (mkRat 136969 10000) (mkRat (-892341) 10000)
        exGCoord 3 20 exTextsNoise (some 11) exStore = (some r, exGCoord, exStore) ∧
      r.matchLevel = some 2 ∧
      r.locGroup2Id = some exL2SanBenito.id ∧
      r.matchScore = some 1 ∧
      r.matchSource = some "coordinates" ∧
      r.locGroup2Id = (get_parent_chain exL2SanBenito.id 2 exGCoord).l2 ∧
      r.locGroup3Id = (get_parent_chain exL2SanBenito.id 2 exGCoord).l3 ∧
      r.locGroup4Id = (get_parent_chain exL2SanBenito.id 2 exGCoord).l4 ∧
      r.locGroup5Id = (get_parent_chain exL2SanBenito.id 2 exGCoord).l5 :=
  coordinate_exact_match exDistL1 (mkRat 136969 10000) (mkRat (-892341) 10000)
    exL2SanBenito exGCoord exStore exTextsNoise (some 11)
    (by decide) (by decide) (by decide) (by decide) (by decide) (by decide)
    (by
      intro e' he' hne la lo hla hlo
      simp only [exGCoord, List.mem_cons, List.not_mem_nil, or_false] at he'
      rcases he' with rfl | rfl
      · exact absurd rfl hne
      · rw [show exL2Escalon.latitude = some (mkRat 137000 10000) from rfl] at hla
        cases hla
        rw [show exL2Escalon.longitude = some (mkRat (-892000) 10000) from rfl] at hlo
        cases hlo
        decide)

/-! ## C3 — insert conflicts are not staged; the municipality match stands -/

/-- A taken id makes one retry step of `insert_auto_l2` advance to the
next id. -/
theorem insertAutoL2Go_taken_step (display norm : String) (lat lng : ℚ)
    (l3Id : Nat) (groups : Groups) (store : Store) (a n : Nat)
    (h : store.takenIds.contains n = true) :
    insertAutoL2Go display norm lat lng l3Id groups store (a + 1) n
      = insertAutoL2Go display norm lat lng l3Id groups store a (n + 1) := by
  have e : insertAutoL2Go display norm lat lng l3Id groups store (a + 1) n
      = if store.takenIds.contains n then
          insertAutoL2Go display norm lat lng l3Id groups store a (n + 1)
        else
          (some n,
           { groups with l2 := groups.l2 ++ [autoL2Entry n display norm lat lng l3Id] },
           { store with takenIds := store.takenIds ++ [n] }) := rfl
  rw [e, if_pos h]

/-- A free id makes the retry loop of `insert_auto_l2` succeed
immediately, inserting the row and appending the in-memory entry. -/
theorem insertAutoL2Go_free_step (display norm : String) (lat lng : ℚ)
    (l3Id : Nat) (groups : Groups) (store : Store) (a n : Nat)
    (h : store.takenIds.contains n = false) :
    insertAutoL2Go display norm lat lng l3Id groups store (a + 1) n
      = (some n,
         { groups with l2 := groups.l2 ++ [autoL2Entry n display norm lat lng l3Id] },
         { store with takenIds := store.takenIds ++ [n] }) := by
  have e : insertAutoL2Go display norm lat lng l3Id groups store (a + 1) n
      = if store.takenIds.contains n then
          insertAutoL2Go display norm lat lng l3Id groups store a (n + 1)
        else
          (some n,
           { groups with l2 := groups.l2 ++ [autoL2Entry n display norm lat lng l3Id] },
           { store with takenIds := store.takenIds ++ [n] }) := rfl
  rw [e, if_neg (fun hc => by rw [h] at hc; exact Bool.false_ne_true hc)]

/-- With the next three level-2 ids all taken, `insert_auto_l2` exhausts
its `max_retries = 3` attempts and fails without touching the hierarchy
or the store. -/
theorem insert_auto_l2_exhausted (display norm : String) (lat lng : ℚ)
    (l3Id : Nat) (groups : Groups) (store : Store)
    (h1 : store.takenIds.contains (nextL2Id groups) = true)
    (h2 : store.takenIds.contains (nextL2Id groups + 1) = true)
    (h3 : store.takenIds.contains (nextL2Id groups + 2) = true) :
    insert_auto_l2 display norm lat lng l3Id groups store = (none, groups, store) := by
  unfold insert_auto_l2
  calc insertAutoL2Go display norm lat lng l3Id groups store 3 (nextL2Id groups)
      = insertAutoL2Go display norm lat lng l3Id groups store 2 (nextL2Id groups + 1) :=
        insertAutoL2Go_taken_step display norm lat lng l3Id groups store 2 _ h1
    _ = insertAutoL2Go display norm lat lng l3Id groups store 1 (nextL2Id groups + 1 + 1) :=
        insertAutoL2Go_taken_step display norm lat lng l3Id groups store 1 _ h2
    _ = insertAutoL2Go display norm lat lng l3Id groups store 0 (nextL2Id groups + 1 + 1 + 1) :=
        insertAutoL2Go_taken_step display norm lat lng l3Id groups store 0 _ h3
    _ = (none, groups, store) := rfl

/-- A `get_parent_chain` walk started at level 3 never assigns a level-2
id. -/
theorem get_parent_chain_l3_no_l2 (i : Nat) (groups : Groups) :
    (get_parent_chain i 3 groups).l2 = none :=
  gpcGo_l2_stable groups 4 i 3 {} (by omega)

/-- C3 counterexample: with the next three level-2 ids taken in the
store, the high-confidence insert exhausts its retries, yet the candidate
is not routed to the staging queue (it stays empty); the listing keeps
the municipality-level coordinate match. -/
theorem c3_counterexample :
    extract_colonia_candidate exTextsColonia exG3
      = some ("Residencial Bella Vista", "residencial bella vista", Source.title) ∧
    exStoreTaken.takenIds.contains (nextL2Id exG3) = true ∧
    exStoreTaken.takenIds.contains (nextL2Id exG3 + 1) = true ∧
    exStoreTaken.takenIds.contains (nextL2Id exG3 + 2) = true ∧
    try_create_l2_from_listing exDistL1 exTextsColonia 10 20 301 exG3 exStoreTaken
      (some 77) = (none, exG3, exStoreTaken) ∧
    (try_create_l2_from_listing exDistL1 exTextsColonia 10 20 301 exG3 exStoreTaken
      (some 77)).2.2.staging = [] ∧
    ((matchByCoordinatesTier2 exDistL1 10 20 exG3 20 exTextsColonia (some 77)
      exStoreTaken).1.map (fun r => (r.matchLevel, r.matchSource)))
      = some (some 3, some "coordinates") := by
  refine ⟨by decide, by decide, by decide, by decide, by decide, by decide, by decide⟩

/-- C3 (amended): the auto-insert computes its id as
`max(existing level-2 ids) + 1` and, on a conflict, retries with an
incremented id up to three attempts; when the retries are exhausted the
failure is non-fatal, but the high-confidence candidate is NOT routed to
the staging queue — `try_create_l2_from_listing` returns `None` with the
hierarchy and the store (including the staging queue) unchanged — and the
listing's match result keeps the municipality-level (level-3) coordinate
match it had before discovery was attempted. -/
theorem insert_conflict_not_staged (dist : DistFn) (texts : Texts)
    (lat lng maxL3Km bestDist : ℚ) (l3Id : Nat) (groups : Groups)
    (store : Store) (externalId : Option Nat) (display norm : String) (sf : Source)
    (hx : extract_colonia_candidate texts groups = some (display, norm, sf))
    (hsf : sf = Source.title ∨ sf = Source.location)
    (hdup : check_l2_duplicate dist norm lat lng l3Id groups = none)
    (h1 : store.takenIds.contains (nextL2Id groups) = true)
    (h2 : store.takenIds.contains (nextL2Id groups + 1) = true)
    (h3 : store.takenIds.contains (nextL2Id groups + 2) = true)
    (hcent : nearestL3Centroid dist lat lng (l3Centroids groups.l2 []) none
      = some (l3Id, bestDist))
    (hble : qble bestDist maxL3Km = true) :
    (∀ st2 : Store, st2.takenIds.contains (nextL2Id groups) = false →
      insert_auto_l2 display norm lat lng l3Id groups st2
        = (some (nextL2Id groups),
           { groups with l2 := groups.l2 ++ [autoL2Entry (nextL2Id groups) display norm lat lng l3Id] },
           { st2 with takenIds := st2.takenIds ++ [nextL2Id groups] })) ∧
    (∀ st2 : Store, st2.takenIds.contains (nextL2Id groups) = true →
      st2.takenIds.contains (nextL2Id groups + 1) = false →
      (insert_auto_l2 display norm lat lng l3Id groups st2).1
        = some (nextL2Id groups + 1)) ∧
    try_create_l2_from_listing dist texts lat lng l3Id groups store externalId
      = (none, groups, store) ∧
    ∃ r, matchByCoordinatesTier2 dist lat lng groups maxL3Km texts externalId store
        = (some r, groups, store)
      ∧ r.matchLevel = some 3 ∧ r.matchSource = some "coordinates"
      ∧ r.locGroup2Id = none ∧ r.locGroup3Id = (get_parent_chain l3Id 3 groups).l3 := by
  have htc : try_create_l2_from_listing dist texts lat lng l3Id groups store externalId
      = (none, groups, store) := by
    unfold try_create_l2_from_listing
    rw [hx]
    dsimp only
    rw [if_neg (show ¬(optNatTruthy (check_l2_duplicate dist norm lat lng l3Id groups)
      = true) from by rw [hdup]; decide)]
    rw [if_pos hsf]
    exact insert_auto_l2_exhausted display norm lat lng l3Id groups store h1 h2 h3
  refine ⟨?_, ?_, htc, ?_⟩
  · intro st2 hfree
    exact insertAutoL2Go_free_step display norm lat lng l3Id groups st2 2
      (nextL2Id groups) hfree
  · intro st2 ht hfree
    have hh : insertAutoL2Go display norm lat lng l3Id groups st2 3 (nextL2Id groups)
        = (some (nextL2Id groups + 1),
           { groups with l2 := groups.l2 ++ [autoL2Entry (nextL2Id groups + 1) display norm lat lng l3Id] },
           { st2 with takenIds := st2.takenIds ++ [nextL2Id groups + 1] }) :=
      (insertAutoL2Go_taken_step display norm lat lng l3Id groups st2 2
        (nextL2Id groups) ht).trans
        (insertAutoL2Go_free_step display norm lat lng l3Id groups st2 1
          (nextL2Id groups + 1) hfree)
    show (insertAutoL2Go display norm lat lng l3Id groups st2 3 (nextL2Id groups)).1
      = some (nextL2Id groups + 1)
    rw [hh]
  · unfold matchByCoordinatesTier2
    rw [hcent]
    dsimp only
    rw [if_pos hble]
    rw [htc]
    dsimp only
    refine ⟨_, rfl, rfl, rfl, ?_, rfl⟩
    show (get_parent_chain l3Id 3 groups).l2 = none
    exact get_parent_chain_l3_no_l2 l3Id groups

/-- Witness for the amended C3 at the concrete exhausted store. -/
theorem insert_conflict_not_staged_witness :
    (∀ st2 : Store, st2.takenIds.contains (nextL2Id exG3) = false →
      insert_auto_l2 "Residencial Bella Vista" "residencial bella vista" 10 20 301
          exG3 st2
        = (some (nextL2Id exG3),
           { exG3 with l2 := exG3.l2 ++ [autoL2Entry (nextL2Id exG3) "Residencial Bella Vista" "residencial bella vista" 10 20 301] },
           { st2 with takenIds := st2.takenIds ++ [nextL2Id exG3] })) ∧
    (∀ st2 : Store, st2.takenIds.contains (nextL2Id exG3) = true →
      st2.takenIds.contains (nextL2Id exG3 + 1) = false →
      (insert_auto_l2 "Residencial Bella Vista" "residencial bella vista" 10 20 301
          exG3 st2).1
        = some (nextL2Id exG3 + 1)) ∧
    try_create_l2_from_listing exDistL1 exTextsColonia 10 20 301 exG3 exStoreTaken
      (some 77) = (none, exG3, exStoreTaken) ∧
    ∃ r, matchByCoordinatesTier2 exDistL1 10 20 exG3 20 exTextsColonia (some 77)
        exStoreTaken = (some r, exG3, exStoreTaken)
      ∧ r.matchLevel = some 3 ∧ r.matchSource = some "coordinates"
      ∧ r.locGroup2Id = none ∧ r.locGroup3Id = (get_parent_chain 301 3 exG3).l3 :=
  insert_conflict_not_staged exDistL1 exTextsColonia 10 20 20 2 301 exG3 exStoreTaken
    (some 77) "Residencial Bella Vista" "residencial bella vista" Source.title
    (by decide) (Or.inl rfl) (by decide) (by decide) (by decide) (by decide)
    (by decide) (by decide)


/-! ## C6 — discovery idempotence -/

/-- `find?` over an appended list scans the tail when the head list has
no hit. -/
theorem find?_append_of_none {α : Type} (p : α → Bool) :
    ∀ (l l' : List α), l.find? p = none → (l ++ l').find? p = l'.find? p := by
  intro l
  induction l with
  | nil => intro l' _; rfl
  | cons a t ih =>
    intro l' h
    by_cases hp : p a = true
    · rw [List.find?_cons_of_pos _ hp] at h
      exact absurd h (by simp)
    · rw [List.find?_cons_of_neg _ hp] at h
      rw [List.cons_append, List.find?_cons_of_neg _ hp]
      exact ih l' h

/-- `extract_colonia_candidate` never consults the level-2 entries: its
stop names are built from levels 3-5 only. -/
theorem extract_colonia_candidate_l2_irrelevant (texts : Texts) (groups : Groups)
    (x : List LocEntry) :
    extract_colonia_candidate texts { groups with l2 := x }
      = extract_colonia_candidate texts groups := rfl

/-- After the entry is appended to the level-2 list, the duplicate check
finds it by exact name equality under the same parent. -/
theorem check_l2_duplicate_finds_inserted (dist : DistFn) (norm display : String)
    (lat lng la lo : ℚ) (l3Id i : Nat) (groups : Groups)
    (hdup : check_l2_duplicate dist norm lat lng l3Id groups = none) :
    check_l2_duplicate dist norm lat lng l3Id
      { groups with l2 := groups.l2 ++ [autoL2Entry i display norm la lo l3Id] }
      = some i := by
  unfold check_l2_duplicate at hdup ⊢
  dsimp only at hdup ⊢
  rw [Option.map_eq_none'] at hdup
  rw [find?_append_of_none _ _ _ hdup]
  rw [List.find?_cons_of_pos _ (by simp [autoL2Entry])]
  rfl

/-- Characterization of a successful insert: the returned id is at least
the starting id and the hierarchy and store grow by exactly the new
entry. -/
theorem insertAutoL2Go_some (display norm : String) (lat lng : ℚ) (l3Id : Nat)
    (groups : Groups) (store : Store) :
    ∀ (a n i : Nat) (g1 : Groups) (s1 : Store),
      insertAutoL2Go display norm lat lng l3Id groups store a n = (some i, g1, s1) →
      n ≤ i ∧
      g1 = { groups with l2 := groups.l2 ++ [autoL2Entry i display norm lat lng l3Id] } ∧
      s1 = { store with takenIds := store.takenIds ++ [i] } := by
  intro a
  induction a with
  | zero =>
    intro n i g1 s1 h
    simp [insertAutoL2Go] at h
  | succ a ih =>
    intro n i g1 s1 h
    by_cases hc : store.takenIds.contains n = true
    · rw [insertAutoL2Go_taken_step display norm lat lng l3Id groups store a n hc] at h
      obtain ⟨hle, hg, hs⟩ := ih (n + 1) i g1 s1 h
      exact ⟨by omega, hg, hs⟩
    · have hc' : store.takenIds.contains n = false := by
        revert hc
        cases store.takenIds.contains n <;> simp
      rw [insertAutoL2Go_free_step display norm lat lng l3Id groups store a n hc'] at h
      simp only [Prod.mk.injEq, Option.some.injEq] at h
      obtain ⟨rfl, hg, hs⟩ := h
      exact ⟨Nat.le_refl n, hg.symm, hs.symm⟩

/-- C6: neighborhood discovery is idempotent.  When the first
high-confidence call extracts a candidate, finds no duplicate and inserts
it successfully, the hierarchy grows by exactly that one level-2 node,
and a second call with identical texts, coordinates and parent is
answered by the duplicate check: it returns the id created by the first
call and changes nothing. -/
theorem discovery_idempotent (dist : DistFn) (texts : Texts) (lat lng : ℚ)
    (l3Id : Nat) (groups g1 : Groups) (store s1 : Store) (externalId : Option Nat)
    (display norm : String) (sf : Source) (i : Nat)
    (hx : extract_colonia_candidate texts groups = some (display, norm, sf))
    (hsf : sf = Source.title ∨ sf = Source.location)
    (hdup : check_l2_duplicate dist norm lat lng l3Id groups = none)
    (hfirst : try_create_l2_from_listing dist texts lat lng l3Id groups store
      externalId = (some i, g1, s1)) :
    try_create_l2_from_listing dist texts lat lng l3Id g1 s1 externalId
      = (some i, g1, s1) ∧
    g1.l2 = groups.l2 ++ [autoL2Entry i display norm lat lng l3Id] := by
  unfold try_create_l2_from_listing at hfirst
  rw [hx] at hfirst
  dsimp only at hfirst
  rw [if_neg (show ¬(optNatTruthy (check_l2_duplicate dist norm lat lng l3Id groups)
    = true) from by rw [hdup]; decide)] at hfirst
  rw [if_pos hsf] at hfirst
  unfold insert_auto_l2 at hfirst
  obtain ⟨hle, hg, hs⟩ := insertAutoL2Go_some display norm lat lng l3Id groups store
    3 (nextL2Id groups) i g1 s1 hfirst
  have h1 : 1 ≤ nextL2Id groups := by
    unfold nextL2Id
    exact Nat.le_add_left 1 _
  have hi0 : i ≠ 0 := by omega
  refine ⟨?_, ?_⟩
  · rw [hg, hs]
    unfold try_create_l2_from_listing
    rw [extract_colonia_candidate_l2_irrelevant, hx]
    dsimp only
    rw [check_l2_duplicate_finds_inserted dist norm display lat lng lat lng l3Id i
      groups hdup]
    rw [if_pos (show optNatTruthy (some i) = true from by
      simpa [optNatTruthy] using hi0)]
  · rw [hg]

/-- Witness for C6: the concrete first call inserts id 32; the second
call returns 32 and leaves the grown hierarchy and store unchanged. -/
theorem discovery_idempotent_witness :
    try_create_l2_from_listing exDistL1 exTextsColonia 10 20 301 exG6g1 exS6s1
      (some 77) = (some 32, exG6g1, exS6s1) ∧
    exG6g1.l2 = exG3.l2 ++
      [autoL2Entry 32 "Residencial Bella Vista" "residencial bella vista" 10 20 301] :=
  discovery_idempotent exDistL1 exTextsColonia 10 20 301 exG3 exG6g1 exStoreFree
    exS6s1 (some 77) "Residencial Bella Vista" "residencial bella vista"
    Source.title 32 (by decide) (Or.inl rfl) (by decide) (by decide)


/-! ## C5 — municipality versus bare department -/

/-- Once the single scoring candidate is the running best of
`find_match_in_level`, later candidates cannot displace it. -/
theorem fmilGo_isolated_stay (text : String) (src : Source) (e : LocEntry)
    (r : ℚ) (m : String) (hs : fmilScore e text = some (r, m)) :
    ∀ (ld : List LocEntry),
      (∀ e' ∈ ld, e' ≠ e → fmilScore e' text = none) →
      fmilGo text src ld (some (e.id, qmul r (sourceWeight src), m))
        (qmul r (sourceWeight src)) = some (e.id, qmul r (sourceWeight src), m) := by
  intro ld
  induction ld with
  | nil => intro _; rfl
  | cons a rest ih =>
    intro h
    have hrest := fun e' he' => h e' (List.mem_cons_of_mem a he')
    by_cases hae : a = e
    · subst hae
      simp only [fmilGo, hs]
      rw [if_neg (fun hq => absurd ((qblt_iff _ _).mp hq) (lt_irrefl _))]
      exact ih hrest
    · simp only [fmilGo, h a (List.mem_cons_self a rest) hae]
      exact ih hrest

/-- The fold of `find_match_in_level` returns the single scoring
candidate at its weighted score. -/
theorem fmilGo_isolated_reach (text : String) (src : Source) (e : LocEntry)
    (r : ℚ) (m : String) (hs : fmilScore e text = some (r, m)) :
    ∀ (ld : List LocEntry) (best : Option (Nat × ℚ × String)) (bs : ℚ),
      (∀ e' ∈ ld, e' ≠ e → fmilScore e' text = none) → e ∈ ld →
      qblt bs (qmul r (sourceWeight src)) = true →
      fmilGo text src ld best bs = some (e.id, qmul r (sourceWeight src), m) := by
  intro ld
  induction ld with
  | nil => intro best bs _ hmem _; exact absurd hmem (List.not_mem_nil e)
  | cons a rest ih =>
    intro best bs h hmem hblt
    have hrest := fun e' he' => h e' (List.mem_cons_of_mem a he')
    by_cases hae : a = e
    · subst hae
      simp only [fmilGo, hs]
      rw [if_pos hblt]
      exact fmilGo_isolated_stay text src a r m hs rest hrest
    · have hmem' : e ∈ rest := by
        rcases List.mem_cons.mp hmem with rfl | hm
        · exact absurd rfl hae
        · exact hm
      simp only [fmilGo, h a (List.mem_cons_self a rest) hae]
      exact ih best bs hrest hmem' hblt

/-- `find_match_in_level` on a level where exactly one candidate scores. -/
theorem fmil_isolated (text : String) (src : Source) (ld : List LocEntry)
    (e : LocEntry) (r : ℚ) (m : String) (he : e ∈ ld)
    (hothers : ∀ e' ∈ ld, e' ≠ e → fmilScore e' text = none)
    (hs : fmilScore e text = some (r, m)) (hr : 0 < r) (ht : text ≠ "") :
    find_match_in_level text ld src = some (e.id, qmul r (sourceWeight src), m) := by
  unfold find_match_in_level
  rw [if_neg ht]
  exact fmilGo_isolated_reach text src e r m hs ld none 0 hothers he
    ((qblt_iff _ _).mpr (by rw [qmul_eq]; exact mul_pos hr (sourceWeight_pos src)))

/-- The title step of `find_best_match_in_level` when only one candidate
scores in the title and its primary name word-matches it. -/
theorem fbmStep_title_wins_isolated (texts : Texts) (ld : List LocEntry)
    (e : LocEntry) (he : e ∈ ld) (hne : e.normalized ≠ "")
    (h : wordMatch e.normalized texts.title = true)
    (hothers : ∀ e' ∈ ld, e' ≠ e → fmilScore e' texts.title = none)
    (acc : Option (Nat × ℚ × String × Source) × ℚ) (hbs : acc.2 ≤ 24/25) :
    fbmStep texts ld none .title acc = (some (e.id, 1, e.name, .title), 1) := by
  have ht : texts.get .title ≠ "" := text_ne_empty_of_wordMatch _ _ hne h
  have hfm : find_match_in_level (texts.get .title) (fbmFiltered ld none) .title
      = some (e.id, qmul 1 (sourceWeight .title), e.name) :=
    fmil_isolated (texts.get .title) .title ld e 1 e.name he hothers
      (fmilScore_of_primary e _ hne h) one_pos ht
  rw [show qmul 1 (sourceWeight .title) = 1 from by decide] at hfm
  unfold fbmStep
  rw [if_neg ht]
  rw [hfm]
  simp only [fbmUpd]
  have hcond : qblt acc.2 (locBoost .title 1) = true := by
    rw [qblt_iff]
    show acc.2 < (1 : ℚ)
    linarith [hbs, show (24/25 : ℚ) < 1 from by norm_num]
  rw [if_pos hcond]
  rfl

/-- `find_best_match_in_level` returns the single matching candidate from
the title at weighted score 1 when no other candidate matches any field. -/
theorem fbm_isolated_title (texts : Texts) (ld : List LocEntry) (e : LocEntry)
    (he : e ∈ ld) (hne : e.normalized ≠ "")
    (h : wordMatch e.normalized texts.title = true)
    (hothers : ∀ e' ∈ ld, e' ≠ e → ∀ src ∈ fmwtSources,
      noVariantWordMatch e' (texts.get src)) :
    find_best_match_in_level texts ld none = some (e.id, 1, e.name, .title) := by
  have h0 : find_best_match_in_level texts ld none
      = (fbmStep texts ld none .description (fbmStep texts ld none .details
          (fbmStep texts ld none .title (fbmStep texts ld none .location
            (none, 0))))).1 := rfl
  rw [h0]
  rw [fbmStep_title_wins_isolated texts ld e he hne h
    (fun e' he' hne' => fmilScore_none_of_noVariant e' _
      (hothers e' he' hne' .title (by decide)))
    _ (fbmStep_loc_bound texts ld none (none, 0) (by norm_num))]
  rw [fbmStep_dd_keep texts ld none .details (Or.inl rfl) _ (le_refl 1)]
  rw [fbmStep_dd_keep texts ld none .description (Or.inr rfl) _ (le_refl 1)]

/-- `Chain.set` at a level other than 3 does not touch the level-3 id. -/
theorem Chain_set_l3 (ch : Chain) (lvl id : Nat) (h : lvl ≠ 3) :
    (ch.set lvl id).l3 = ch.l3 := by
  rcases lvl with _ | _ | _ | _ | _ | _ | n
  · rfl
  · rfl
  · rfl
  · exact absurd rfl h
  · rfl
  · rfl
  · rfl

/-- Past level 3, the walk of `get_parent_chain` keeps the level-3 id. -/
theorem gpcGo_l3_stable (groups : Groups) :
    ∀ (fuel cid lvl : Nat) (ch : Chain), 4 ≤ lvl →
      (gpcGo groups fuel cid lvl ch).l3 = ch.l3 := by
  intro fuel
  induction fuel with
  | zero => intro cid lvl ch h; rfl
  | succ n ih =>
    intro cid lvl ch h
    unfold gpcGo
    by_cases h5 : lvl > 5
    · rw [if_pos h5]
    · rw [if_neg h5]
      dsimp only
      by_cases heq : lvl = 5
      · rw [if_pos heq]
        exact Chain_set_l3 ch lvl cid (by omega)
      · rw [if_neg heq]
        split
        · exact Chain_set_l3 ch lvl cid (by omega)
        · split
          · exact Chain_set_l3 ch lvl cid (by omega)
          · split
            · exact (ih _ _ _ (by omega)).trans (Chain_set_l3 ch lvl cid (by omega))
            · exact Chain_set_l3 ch lvl cid (by omega)

/-- A `get_parent_chain` walk started at level 3 records the starting id
as the level-3 id. -/
theorem gpcGo_start3 (groups : Groups) (n i : Nat) (ch : Chain) :
    (gpcGo groups (n + 1) i 3 ch).l3 = some i := by
  unfold gpcGo
  rw [if_neg (by omega : ¬(3:Nat) > 5)]
  dsimp only
  rw [if_neg (by omega : ¬(3:Nat) = 5)]
  have hset : (ch.set 3 i).l3 = some i := rfl
  split
  · exact hset
  · split
    · exact hset
    · split
      · exact (gpcGo_l3_stable groups n _ 4 _ (by omega)).trans hset
      · exact hset

/-- `get_parent_chain` from a level-3 node yields that node's id as the
level-3 id. -/
theorem get_parent_chain_l3_self (i : Nat) (groups : Groups) :
    (get_parent_chain i 3 groups).l3 = some i :=
  gpcGo_start3 groups 3 i {}

/-- Rounding 1.0 to two decimal places gives 1. -/
theorem round2_one : round2 1 = 1 := by decide

/-- C5 counterexample: the department name is a proper substring of the
municipality name and the title contains the full municipality name, yet
the listing resolves to the other municipality named first in the level's
iteration order, not to Antiguo Cuscatlán. -/
theorem c5_counterexample :
    substrB exDept.normalized exAC.normalized = true ∧
    exDept.normalized ≠ exAC.normalized ∧
    wordMatch exAC.normalized exTextsTwoMunis.title = true ∧
    ((match_listing distZero exTextsTwoMunis none none (some 12) exG5
      exStore).1.map (fun r => (r.locGroup3Id, r.matchLevel)))
      = some (some exSS.id, some 3) ∧
    exSS.id ≠ exAC.id := by
  refine ⟨by decide, by decide, by decide, by decide, by decide⟩

/-- C5 (amended): when the municipality's full normalized name
word-matches the listing title and no other hierarchy entry of level 3 or
2 matches any text field, `match_listing` resolves the listing to that
municipality: level 3, the municipality's id, score 1.0 from the title,
with its stored parent chain and no level-2 id — never the bare
department (level 5).  (With competing municipality mentions of equal
score, the entry first in the level's iteration order wins instead.) -/
theorem muni_over_department (dist : DistFn) (texts : Texts) (extId : Option Nat)
    (groups : Groups) (store : Store) (e : LocEntry)
    (he : e ∈ groups.l3) (hne : e.normalized ≠ "")
    (hT : wordMatch e.normalized texts.title = true)
    (hothers : ∀ e' ∈ groups.l3, e' ≠ e → ∀ src ∈ fmwtSources,
      noVariantWordMatch e' (texts.get src))
    (hl2 : ∀ e2 ∈ groups.l2, ∀ src ∈ fmwtSources,
      noVariantWordMatch e2 (texts.get src)) :
    ∃ r, (match_listing dist texts none none extId groups store).1 = some r ∧
      r.matchLevel = some 3 ∧
      r.locGroup3Id = some e.id ∧
      r.matchScore = some 1 ∧
      r.matchSource = some "title" ∧
      r.locGroup2Id = none ∧
      r.locGroup4Id = (get_parent_chain e.id 3 groups).l4 ∧
      r.locGroup5Id = (get_parent_chain e.id 3 groups).l5 := by
  have hfb : find_best_match_in_level texts groups.l3 none
      = some (e.id, 1, e.name, .title) :=
    fbm_isolated_title texts groups.l3 e he hne hT hothers
  have hl2fb : find_best_match_in_level texts groups.l2 (some e.id) = none :=
    find_best_match_in_level_none texts groups.l2 (some e.id) hl2
  have key : matchListingText dist texts none none extId groups store
      = (some { ({ externalId := extId } : MatchResult).withChain
            (get_parent_chain e.id 3 groups) with
            matchLevel := some 3
            matchScore := some (round2 1)
            matchSource := some (Source.title).str
            matchedText := strOpt255 e.name }, groups, store) := by
    unfold matchListingText
    rw [hfb]
    dsimp only
    rw [if_pos (show qble (mkRat 9 10) 1 = true from by decide)]
    unfold mlL2Upgrade
    rw [hl2fb]
    rw [mlAutoCreate_skip dist texts none none extId e.id e.name groups store _ rfl]
  refine ⟨{ ({ externalId := extId } : MatchResult).withChain
      (get_parent_chain e.id 3 groups) with
      matchLevel := some 3
      matchScore := some (round2 1)
      matchSource := some (Source.title).str
      matchedText := strOpt255 e.name }, ?_, rfl, ?_, ?_, rfl, ?_, rfl, rfl⟩
  · show (matchListingText dist texts none none extId groups store).1 = some _
    rw [key]
  · show (get_parent_chain e.id 3 groups).l3 = some e.id
    exact get_parent_chain_l3_self e.id groups
  · show some (round2 1) = some 1
    rw [round2_one]
  · show (get_parent_chain e.id 3 groups).l2 = none
    exact get_parent_chain_l3_no_l2 e.id groups

/-- Witness for the amended C5: a title naming only Antiguo Cuscatlán
resolves to the municipality, never the bare department. -/
theorem muni_over_department_witness :
    ∃ r, (match_listing distZero exTextsAC none none (some 13) exG5 exStore).1
        = some r ∧
      r.matchLevel = some 3 ∧
      r.locGroup3Id = some exAC.id ∧
      r.matchScore = some 1 ∧
      r.matchSource = some "title" ∧
      r.locGroup2Id = none ∧
      r.locGroup4Id = (get_parent_chain exAC.id 3 exG5).l4 ∧
      r.locGroup5Id = (get_parent_chain exAC.id 3 exG5).l5 :=
  muni_over_department distZero exTextsAC (some 13) exG5 exStore exAC
    (by decide) (by decide) (by decide) (by decide) (by decide)


/-! ## C8 — the two per-listing decision procedures -/

/-- A repeat title step of `find_match` keeps the already-stored title
match (the strict comparison rejects an equal adjusted score). -/
theorem fmwtStep_title_keep (texts : Texts) (e : LocEntry)
    (hne : e.normalized ≠ "") (hT : wordMatch e.normalized texts.title = true) :
    fmwtStep texts e .title
      (some (e.id, 1, e.name, .title),
       qadd 1 (qmul (sourcePriority .title) (mkRat 1 1000)))
      = (some (e.id, 1, e.name, .title),
         qadd 1 (qmul (sourcePriority .title) (mkRat 1 1000))) := by
  have ht : texts.get .title ≠ "" := text_ne_empty_of_wordMatch _ _ hne hT
  unfold fmwtStep
  rw [if_neg ht]
  have hs : fmwtScore e (texts.get Source.title) = some (1, e.name) :=
    fmwtScore_of_primary e (texts.get Source.title) hne hT
  rw [hs]
  simp only [fmwtUpd]
  rw [if_neg (fun hq => absurd ((qblt_iff _ _).mp hq) (lt_irrefl _))]

/-- The inner field loop of `find_match` for a candidate that matches the
title (and not the location) replaces any accumulator of score at most
0.96. -/
theorem fmwtInner_title_isolated (texts : Texts) (e : LocEntry)
    (hne : e.normalized ≠ "") (hT : wordMatch e.normalized texts.title = true)
    (hLoc : noVariantWordMatch e texts.location)
    (acc : Option (Nat × ℚ × String × Source) × ℚ) (hbs : acc.2 ≤ 24/25) :
    fmwtInner texts e fmwtSources acc
      = (some (e.id, 1, e.name, .title),
         qadd 1 (qmul (sourcePriority .title) (mkRat 1 1000))) := by
  have h0 : fmwtInner texts e fmwtSources acc
      = fmwtStep texts e .description (fmwtStep texts e .details
          (fmwtStep texts e .location (fmwtStep texts e .title acc))) := rfl
  rw [h0]
  rw [fmwtStep_title_wins texts e hne hT acc hbs]
  rw [fmwtStep_keep_of_noVariant texts e .location _ hLoc]
  have hge : (1003/1000 : ℚ)
      ≤ qadd 1 (qmul (sourcePriority .title) (mkRat 1 1000)) := by
    rw [qadd_eq, qmul_eq, mkRat_eq]
    norm_num [sourcePriority]
  rw [fmwtStep_dd_keep texts e .details (Or.inl rfl) _ hge]
  rw [fmwtStep_dd_keep texts e .description (Or.inr rfl) _ hge]

/-- The inner field loop of `find_match` keeps an already-stored title
match of the same candidate. -/
theorem fmwtInner_title_isolated_stay (texts : Texts) (e : LocEntry)
    (hne : e.normalized ≠ "") (hT : wordMatch e.normalized texts.title = true)
    (hLoc : noVariantWordMatch e texts.location) :
    fmwtInner texts e fmwtSources
      (some (e.id, 1, e.name, .title),
       qadd 1 (qmul (sourcePriority .title) (mkRat 1 1000)))
      = (some (e.id, 1, e.name, .title),
         qadd 1 (qmul (sourcePriority .title) (mkRat 1 1000))) := by
  have h0 : fmwtInner texts e fmwtSources
      (some (e.id, 1, e.name, .title),
       qadd 1 (qmul (sourcePriority .title) (mkRat 1 1000)))
      = fmwtStep texts e .description (fmwtStep texts e .details
          (fmwtStep texts e .location (fmwtStep texts e .title
            (some (e.id, 1, e.name, .title),
             qadd 1 (qmul (sourcePriority .title) (mkRat 1 1000)))))) := rfl
  rw [h0]
  rw [fmwtStep_title_keep texts e hne hT]
  rw [fmwtStep_keep_of_noVariant texts e .location _ hLoc]
  have hge : (1003/1000 : ℚ)
      ≤ qadd 1 (qmul (sourcePriority .title) (mkRat 1 1000)) := by
    rw [qadd_eq, qmul_eq, mkRat_eq]
    norm_num [sourcePriority]
  rw [fmwtStep_dd_keep texts e .details (Or.inl rfl) _ hge]
  rw [fmwtStep_dd_keep texts e .description (Or.inr rfl) _ hge]

/-- Once stored, the isolated title match survives the remaining
candidates of `find_match`'s outer loop. -/
theorem fmwtOuter_title_isolated_stay (texts : Texts) (e : LocEntry)
    (hne : e.normalized ≠ "") (hT : wordMatch e.normalized texts.title = true)
    (hLoc : noVariantWordMatch e texts.location) :
    ∀ (ld : List LocEntry),
      (∀ e' ∈ ld, e' ≠ e → ∀ src ∈ fmwtSources,
        noVariantWordMatch e' (texts.get src)) →
      fmwtOuter texts none ld
        (some (e.id, 1, e.name, .title),
         qadd 1 (qmul (sourcePriority .title) (mkRat 1 1000)))
        = (some (e.id, 1, e.name, .title),
           qadd 1 (qmul (sourcePriority .title) (mkRat 1 1000))) := by
  intro ld
  induction ld with
  | nil => intro _; rfl
  | cons a rest ih =>
    intro h
    have hrest := fun e' he' => h e' (List.mem_cons_of_mem a he')
    simp only [fmwtOuter]
    rw [if_neg (by simp [optNatTruthy])]
    by_cases hae : a = e
    · subst hae
      rw [fmwtInner_title_isolated_stay texts a hne hT hLoc]
      exact ih hrest
    · rw [fmwtInner_keep_of_noVariant texts a fmwtSources
        (fun src hs => h a (List.mem_cons_self a rest) hae src hs) _]
      exact ih hrest

/-- The outer loop of `find_match` reaches and keeps the isolated title
match. -/
theorem fmwtOuter_title_isolated (texts : Texts) (e : LocEntry)
    (hne : e.normalized ≠ "") (hT : wordMatch e.normalized texts.title = true)
    (hLoc : noVariantWordMatch e texts.location) :
    ∀ (ld : List LocEntry) (acc : Option (Nat × ℚ × String × Source) × ℚ),
      (∀ e' ∈ ld, e' ≠ e → ∀ src ∈ fmwtSources,
        noVariantWordMatch e' (texts.get src)) →
      e ∈ ld → acc.2 ≤ 24/25 →
      fmwtOuter texts none ld acc
        = (some (e.id, 1, e.name, .title),
           qadd 1 (qmul (sourcePriority .title) (mkRat 1 1000))) := by
  intro ld
  induction ld with
  | nil => intro acc _ hmem _; exact absurd hmem (List.not_mem_nil e)
  | cons a rest ih =>
    intro acc h hmem hbs
    have hrest := fun e' he' => h e' (List.mem_cons_of_mem a he')
    simp only [fmwtOuter]
    rw [if_neg (by simp [optNatTruthy])]
    by_cases hae : a = e
    · subst hae
      rw [fmwtInner_title_isolated texts a hne hT hLoc acc hbs]
      exact fmwtOuter_title_isolated_stay texts a hne hT hLoc rest hrest
    · rw [fmwtInner_keep_of_noVariant texts a fmwtSources
        (fun src hs => h a (List.mem_cons_self a rest) hae src hs) acc]
      have hmem' : e ∈ rest := by
        rcases List.mem_cons.mp hmem with rfl | hm
        · exact absurd rfl hae
        · exact hm
      exact ih acc hrest hmem' hbs

/-- `find_match` returns the single matching candidate from the title at
raw score 1 when no other candidate matches any field. -/
theorem fmwt_isolated_title (texts : Texts) (ld : List LocEntry) (e : LocEntry)
    (he : e ∈ ld) (hne : e.normalized ≠ "")
    (hT : wordMatch e.normalized texts.title = true)
    (hLoc : noVariantWordMatch e texts.location)
    (hothers : ∀ e' ∈ ld, e' ≠ e → ∀ src ∈ fmwtSources,
      noVariantWordMatch e' (texts.get src)) :
    findMatchWT texts ld none = some (e.id, 1, e.name, .title) := by
  show (fmwtOuter texts none ld (none, 0)).1 = _
  rw [fmwtOuter_title_isolated texts e hne hT hLoc ld (none, 0) hothers he
    (by norm_num)]

/-- C8 counterexample: on a description-only listing the two
implementations disagree — `match_listing` returns no match while
`match_listing_with_texts` returns a level-3 match from the description. -/
theorem c8_counterexample :
    (match_listing distZero exTextsDesc none none (some 9) exG1 exStore).1
      = none ∧
    (match_listing_with_texts distZero exTextsDesc none none (some 9) exG1
      exStore).1.locGroup3Id = some exSS.id ∧
    (match_listing_with_texts distZero exTextsDesc none none (some 9) exG1
      exStore).1.matchLevel = some 3 ∧
    (match_listing_with_texts distZero exTextsDesc none none (some 9) exG1
      exStore).1.matchSource = some "description" := by
  refine ⟨by decide, by decide, by decide, by decide⟩

/-- C8 (amended): the two decision procedures agree on the hierarchy ids,
match level, score and source for coordinate-free listings whose title
word-matches exactly one municipality's primary name, with that name
absent from the location field and no other level-3 or level-2 entry
matching any field.  (They diverge in general: a raw match found only in
the description clears the gate in `match_listing_with_texts` but not in
`match_listing`, and a name in both title and location is reported from
the title by `match_listing` but from the location by
`match_listing_with_texts`.) -/
theorem implementations_agree_on_title_match (dist : DistFn) (texts : Texts)
    (extId : Option Nat) (groups : Groups) (store : Store) (e : LocEntry)
    (he : e ∈ groups.l3) (hne : e.normalized ≠ "")
    (hT : wordMatch e.normalized texts.title = true)
    (hLoc : noVariantWordMatch e texts.location)
    (hothers : ∀ e' ∈ groups.l3, e' ≠ e → ∀ src ∈ fmwtSources,
      noVariantWordMatch e' (texts.get src))
    (hl2 : ∀ e2 ∈ groups.l2, ∀ src ∈ fmwtSources,
      noVariantWordMatch e2 (texts.get src)) :
    ∃ r1 r2, (match_listing dist texts none none extId groups store).1 = some r1 ∧
      (match_listing_with_texts dist texts none none extId groups store).1 = r2 ∧
      r1.locGroup2Id = r2.locGroup2Id ∧ r1.locGroup3Id = r2.locGroup3Id ∧
      r1.locGroup4Id = r2.locGroup4Id ∧ r1.locGroup5Id = r2.locGroup5Id ∧
      r1.matchLevel = r2.matchLevel ∧ r1.matchScore = r2.matchScore ∧
      r1.matchSource = r2.matchSource := by
  have hfb : find_best_match_in_level texts groups.l3 none
      = some (e.id, 1, e.name, .title) :=
    fbm_isolated_title texts groups.l3 e he hne hT hothers
  have hl2fb : find_best_match_in_level texts groups.l2 (some e.id) = none :=
    find_best_match_in_level_none texts groups.l2 (some e.id) hl2
  have key : matchListingText dist texts none none extId groups store
      = (some { ({ externalId := extId } : MatchResult).withChain
            (get_parent_chain e.id 3 groups) with
            matchLevel := some 3
            matchScore := some (round2 1)
            matchSource := some (Source.title).str
            matchedText := strOpt255 e.name }, groups, store) := by
    unfold matchListingText
    rw [hfb]
    dsimp only
    rw [if_pos (show qble (mkRat 9 10) 1 = true from by decide)]
    unfold mlL2Upgrade
    rw [hl2fb]
    rw [mlAutoCreate_skip dist texts none none extId e.id e.name groups store _ rfl]
  have hfbwt : findMatchWT texts groups.l3 none = some (e.id, 1, e.name, .title) :=
    fmwt_isolated_title texts groups.l3 e he hne hT hLoc hothers
  have hl2wt : findMatchWT texts groups.l2 (some e.id) = none :=
    findMatchWT_none texts groups.l2 (some e.id) hl2
  have key2 : matchListingWTText dist texts none none extId groups store
      = ({ ({} : MatchResult).withChain (get_parent_chain e.id 3 groups) with
            matchLevel := some 3
            matchScore := some (round2 1)
            matchSource := some (Source.title).str
            matchedText := strOpt255 e.name }, groups, store) := by
    unfold matchListingWTText
    rw [hfbwt]
    dsimp only
    rw [if_pos (show qble (mkRat 9 10) 1 = true from by decide)]
    unfold wtL2Upgrade
    rw [hl2wt]
    rw [wtAutoCreate_skip dist texts none none extId e.id e.name groups store _ rfl]
  refine ⟨{ ({ externalId := extId } : MatchResult).withChain
      (get_parent_chain e.id 3 groups) with
      matchLevel := some 3
      matchScore := some (round2 1)
      matchSource := some (Source.title).str
      matchedText := strOpt255 e.name },
    { ({} : MatchResult).withChain (get_parent_chain e.id 3 groups) with
      matchLevel := some 3
      matchScore := some (round2 1)
      matchSource := some (Source.title).str
      matchedText := strOpt255 e.name }, ?_, ?_, rfl, rfl, rfl, rfl, rfl, rfl, rfl⟩
  · show (matchListingText dist texts none none extId groups store).1 = some _
    rw [key]
  · show (matchListingWTText dist texts none none extId groups store).1 = _
    rw [key2]

/-- Witness for the amended C8 at a concrete isolated title match. -/
theorem implementations_agree_on_title_match_witness :
    ∃ r1 r2, (match_listing distZero exTextsAC none none (some 14) exG5
        exStore).1 = some r1 ∧
      (match_listing_with_texts distZero exTextsAC none none (some 14) exG5
        exStore).1 = r2 ∧
      r1.locGroup2Id = r2.locGroup2Id ∧ r1.locGroup3Id = r2.locGroup3Id ∧
      r1.locGroup4Id = r2.locGroup4Id ∧ r1.locGroup5Id = r2.locGroup5Id ∧
      r1.matchLevel = r2.matchLevel ∧ r1.matchScore = r2.matchScore ∧
      r1.matchSource = r2.matchSource :=
  implementations_agree_on_title_match distZero exTextsAC (some 14) exG5 exStore
    exAC (by decide) (by decide) (by decide) (by decide) (by decide) (by decide)

end SivarCasas
